import Mathlib

/-!
Verification of the ArchiText floor-plan layout subsystem
(`scripts/graph_layout_optimizer.py` and `scripts/bounded_layout_generator.py`)
against its natural-language specification.

Modelling conventions:
* Python floats are modelled as exact rationals (`ℚ`); every comparison,
  scale factor and tolerance in the source is exact decimal arithmetic, so
  the translation is value-faithful.
* Python dicts keyed by insertion order are modelled as association lists
  (`List (key × value)`), with overwrite-or-append insertion.
* Room identifiers are free-form strings in the source, generated only in
  the shapes `"living_room"`, `"bedroom_<i>"`, `"bathroom_<i>"`, … ; they
  are modelled by the inductive `RoomId`, with an `other : String` escape
  for arbitrary keys so that the public `add_room` stays fully general.
  The source's `room_id.startswith("bedroom_")` test becomes a
  constructor match (plus the literal `startsWith` on the escape case).
* The module-level `random` calls (`uniform`, `shuffle`, `choice`,
  `random()`) make the generation functions nondeterministic; each
  random choice is modelled as an explicit oracle parameter, and the
  theorems quantify over all oracles (with the minimal hypotheses a
  given claim needs, e.g. that a shuffle returns a permutation).
* `"" `/`"north"`/… door-wall strings are modelled as `Option Wall`.
-/

namespace ArchiText

/-- Connection kind between rooms: the source's `ConnectionType` enum with
values `"door"`, `"open"` and `"double"`. -/
inductive ConnectionType where
  | door
  | openArch
  | double
deriving DecidableEq, Repr

/-- Functional zone of a room: the source's `Zone` enum with values
`"public"`, `"private"`, `"service"` (renamed `pub`/`priv`/`service`
because `private` is a Lean keyword). -/
inductive Zone where
  | pub
  | priv
  | service
deriving DecidableEq, Repr

/-- Wall side on which a door sits (the source uses the strings
`"north"`, `"south"`, `"east"`, `"west"`). -/
inductive Wall where
  | north
  | south
  | east
  | west
deriving DecidableEq, Repr

/-- Room identity keys. The source uses strings; generation produces only
the keys named here (`f"bedroom_{i}"` ↦ `bedroom i`, `f"bathroom_{i}"` ↦
`bathroom i`), and `other` covers any remaining string key that a caller
of the public `add_room` might use. -/
inductive RoomId where
  | living_room
  | kitchen
  | dining_room
  | hallway
  | master_bedroom
  | en_suite
  | study
  | garage
  | bedroom (i : Nat)
  | bathroom (i : Nat)
  | other (s : String)
deriving DecidableEq, Repr

/-- Does the key start with `"bedroom_"` (the source's
`room_id.startswith("bedroom_")`)? Note `"master_bedroom"` does not. -/
def RoomId.startsBedroom : RoomId → Bool
  | .bedroom _ => true
  | .other s => s.startsWith "bedroom_"
  | _ => false

/-- Does the key start with `"bathroom_"`? Note `"en_suite"` does not. -/
def RoomId.startsBathroom : RoomId → Bool
  | .bathroom _ => true
  | .other s => s.startsWith "bathroom_"
  | _ => false

/-- A room in the floor plan graph (the source's `RoomNode` dataclass). -/
structure RoomNode where
  id : RoomId
  room_type : String
  width : ℚ
  height : ℚ
  zone : Zone := .pub
  x : ℚ := 0
  y : ℚ := 0
  placed : Bool := false
deriving DecidableEq, Repr

/-- The `(x1, y1, x2, y2)` bounds of a room (the source's `bounds`
property), as a named record instead of a 4-tuple. -/
structure BBox where
  minX : ℚ
  minY : ℚ
  maxX : ℚ
  maxY : ℚ
deriving DecidableEq, Repr

/-- Bounds of a single room. -/
def RoomNode.bounds (r : RoomNode) : BBox :=
  ⟨r.x, r.y, r.x + r.width, r.y + r.height⟩

/-- A connection between two rooms (the source's `RoomEdge` dataclass).
The empty-string `door_wall` default is modelled as `none`. -/
structure RoomEdge where
  room1_id : RoomId
  room2_id : RoomId
  connection_type : ConnectionType := .door
  door_x : ℚ := 0
  door_y : ℚ := 0
  door_wall : Option Wall := none
deriving DecidableEq, Repr

/-- Graph representing a floor plan: insertion-ordered node mapping plus
an ordered edge list (the source's `FloorPlanGraph` dataclass). -/
structure FloorPlanGraph where
  nodes : List (RoomId × RoomNode) := []
  edges : List RoomEdge := []
deriving DecidableEq, Repr

/-- Keys of the node mapping, in insertion order. -/
def FloorPlanGraph.keys (g : FloorPlanGraph) : List RoomId :=
  g.nodes.map Prod.fst

/-- Dict lookup `self.nodes.get(room_id)`. -/
def FloorPlanGraph.get_node (g : FloorPlanGraph) (rid : RoomId) : Option RoomNode :=
  (g.nodes.find? (fun p => p.1 = rid)).map Prod.snd

/-- `FloorPlanGraph.add_room`: `self.nodes[room.id] = room` — dict
assignment overwrites an existing key in place, otherwise appends in
insertion order. -/
def FloorPlanGraph.add_room (g : FloorPlanGraph) (r : RoomNode) : FloorPlanGraph :=
  if g.keys.contains r.id then
    { g with nodes := g.nodes.map (fun p => if p.1 = r.id then (p.1, r) else p) }
  else
    { g with nodes := g.nodes ++ [(r.id, r)] }

/-- `FloorPlanGraph.add_connection`: appends a fresh edge only when both
endpoints are keys of the node mapping. -/
def FloorPlanGraph.add_connection (g : FloorPlanGraph) (a b : RoomId)
    (t : ConnectionType) : FloorPlanGraph :=
  if g.keys.contains a ∧ g.keys.contains b then
    { g with edges := g.edges ++ [{ room1_id := a, room2_id := b, connection_type := t }] }
  else g

/-- Room-dimension catalog type: `room_type ↦ (width, height)`. -/
abbrev Dims := List (String × ℚ × ℚ)

/-- The Room Catalog `GraphLayoutOptimizer.ROOM_DIMENSIONS` — a class-level
(dict) attribute shared by every instance. -/
def ROOM_DIMENSIONS : Dims :=
  [ ("bedroom", 3.5, 3.5)
  , ("master_bedroom", 4.5, 4.0)
  , ("guest_bedroom", 3.5, 3.0)
  , ("kids_bedroom", 3.0, 3.0)
  , ("bathroom", 2.5, 2.5)
  , ("en_suite", 2.5, 2.5)
  , ("powder_room", 1.5, 2.0)
  , ("living_room", 5.5, 4.5)
  , ("lounge", 5.0, 4.0)
  , ("dining_room", 4.0, 3.5)
  , ("family_room", 5.0, 4.5)
  , ("kitchen", 4.0, 3.5)
  , ("kitchen_dining", 6.0, 4.0)
  , ("pantry", 2.0, 2.0)
  , ("study", 3.0, 3.0)
  , ("home_office", 3.5, 3.5)
  , ("laundry", 2.5, 2.0)
  , ("utility", 2.5, 2.5)
  , ("garage", 6.0, 3.0)
  , ("hallway", 4.0, 1.5)
  , ("foyer", 3.0, 2.5)
  , ("corridor", 3.0, 1.2) ]

/-- Catalog lookup `ROOM_DIMENSIONS.get(room_type, (3.0, 3.0))`. -/
def dims_get (dims : Dims) (t : String) : ℚ × ℚ :=
  ((dims.find? (fun p => p.1 = t)).map Prod.snd).getD (3.0, 3.0)

/-- The zone table `ROOM_ZONES` with the `.get(room_type, Zone.PUBLIC)`
default folded in. -/
def ROOM_ZONES (t : String) : Zone :=
  if t = "living_room" ∨ t = "dining_room" ∨ t = "kitchen" ∨ t = "kitchen_dining"
     ∨ t = "family_room" ∨ t = "lounge" ∨ t = "foyer" then .pub
  else if t = "bedroom" ∨ t = "master_bedroom" ∨ t = "guest_bedroom"
     ∨ t = "kids_bedroom" ∨ t = "study" ∨ t = "home_office" then .priv
  else if t = "bathroom" ∨ t = "en_suite" ∨ t = "powder_room" ∨ t = "laundry"
     ∨ t = "utility" ∨ t = "garage" ∨ t = "hallway" ∨ t = "corridor"
     ∨ t = "pantry" then .service
  else .pub

/-- The input specification: a mapping with the seven recognised keys.
`none` models an absent key; every other (unknown) key of the Python dict
is never read by the engine, so the structure projection is exact. -/
structure Spec where
  bedrooms : Option Nat := none
  bathrooms : Option Nat := none
  kitchen : Option Bool := none
  living_room : Option Bool := none
  dining_room : Option Bool := none
  study : Option Bool := none
  garage : Option Bool := none

/-- The empty specification `{}`. -/
def Spec.empty : Spec := {}

/-- `spec.get("bedrooms", 2)`. -/
def Spec.num_bedrooms (s : Spec) : Nat := s.bedrooms.getD 2

/-- `spec.get("bathrooms", 1)`. -/
def Spec.num_bathrooms (s : Spec) : Nat := s.bathrooms.getD 1

/-- `spec.get("kitchen", True)`. -/
def Spec.has_kitchen (s : Spec) : Bool := s.kitchen.getD true

/-- `spec.get("living_room", True)`. -/
def Spec.has_living (s : Spec) : Bool := s.living_room.getD true

/-- `spec.get("dining_room", False)`. -/
def Spec.has_dining (s : Spec) : Bool := s.dining_room.getD false

/-- `spec.get("study", False)`. -/
def Spec.has_study (s : Spec) : Bool := s.study.getD false

/-- `spec.get("garage", False)`. -/
def Spec.has_garage (s : Spec) : Bool := s.garage.getD false

/-- The `room_list` built by `build_graph_from_spec`: `(room_id,
room_type)` pairs in the source's append order. `range(1, n)` becomes
`List.range' 1 (n - 1)`, so `bedroom_{i+1}` ranges over `bedroom_2 ..
bedroom_N` and `bathroom_i` over `bathroom_1 .. bathroom_{M-1}`. -/
def room_list (s : Spec) : List (RoomId × String) :=
  (if s.has_living then [(RoomId.living_room, "living_room")] else [])
  ++ (if s.has_kitchen then [(RoomId.kitchen, "kitchen")] else [])
  ++ (if s.has_dining then [(RoomId.dining_room, "dining_room")] else [])
  ++ (if 0 < s.num_bedrooms then [(RoomId.hallway, "hallway")] else [])
  ++ (if 0 < s.num_bedrooms then [(RoomId.master_bedroom, "master_bedroom")] else [])
  ++ (List.range' 1 (s.num_bedrooms - 1)).map (fun i => (RoomId.bedroom (i + 1), "bedroom"))
  ++ (if 0 < s.num_bedrooms ∧ 0 < s.num_bathrooms then [(RoomId.en_suite, "en_suite")] else [])
  ++ (List.range' 1 (s.num_bathrooms - 1)).map (fun i => (RoomId.bathroom i, "bathroom"))
  ++ (if s.has_study then [(RoomId.study, "study")] else [])
  ++ (if s.has_garage then [(RoomId.garage, "garage")] else [])

/-- The identity keys of the `room_list`, in order. -/
def room_ids (s : Spec) : List RoomId :=
  (room_list s).map Prod.fst

/-!
`_add_default_connections` computes `room_ids = list(self.graph.nodes.keys())`
once and then runs five comment-delimited blocks of guarded
`add_connection` calls; each block is modelled as one function taking
that key list (edges never change the keys, so the snapshot stays equal
to the live keys throughout). -/

/-- Living room connections block. -/
def conn_living (ids : List RoomId) (g : FloorPlanGraph) : FloorPlanGraph :=
  if ids.contains RoomId.living_room then
    let a := if ids.contains RoomId.kitchen then
      g.add_connection .living_room .kitchen .openArch else g
    let b := if ids.contains RoomId.dining_room then
      a.add_connection .living_room .dining_room .openArch else a
    let c := if ids.contains RoomId.hallway then
      b.add_connection .living_room .hallway .door else b
    if ids.contains RoomId.study then
      c.add_connection .living_room .study .door else c
  else g

/-- Kitchen connections block. -/
def conn_kitchen (ids : List RoomId) (g : FloorPlanGraph) : FloorPlanGraph :=
  if ids.contains RoomId.kitchen then
    if ids.contains RoomId.dining_room then
      g.add_connection .kitchen .dining_room .openArch else g
  else g

/-- Body of the hallway loop: connect the hallway to every
`bedroom_`-prefixed and every `bathroom_`-prefixed key. -/
def hallway_loop_step (acc : FloorPlanGraph) (rid : RoomId) : FloorPlanGraph :=
  let acc1 := if rid.startsBedroom then acc.add_connection .hallway rid .door else acc
  if rid.startsBathroom then acc1.add_connection .hallway rid .door else acc1

/-- Hallway connections block (master bedroom, then the loop over all
keys). -/
def conn_hallway (ids : List RoomId) (g : FloorPlanGraph) : FloorPlanGraph :=
  if ids.contains RoomId.hallway then
    let a := if ids.contains RoomId.master_bedroom then
      g.add_connection .hallway .master_bedroom .door else g
    ids.foldl hallway_loop_step a
  else g

/-- En-suite ↔ master bedroom block. -/
def conn_ensuite (ids : List RoomId) (g : FloorPlanGraph) : FloorPlanGraph :=
  if ids.contains RoomId.en_suite ∧ ids.contains RoomId.master_bedroom then
    g.add_connection .master_bedroom .en_suite .door
  else g

/-- Garage connections block (kitchen first, else hallway). -/
def conn_garage (ids : List RoomId) (g : FloorPlanGraph) : FloorPlanGraph :=
  if ids.contains RoomId.garage then
    if ids.contains RoomId.kitchen then
      g.add_connection .garage .kitchen .door
    else if ids.contains RoomId.hallway then
      g.add_connection .garage .hallway .door
    else g
  else g

/-- `_add_default_connections`: fixed architectural rules, driven by the
key list of the already-built node mapping. -/
def add_default_connections (g : FloorPlanGraph) : FloorPlanGraph :=
  let room_ids := g.keys
  conn_garage room_ids (conn_ensuite room_ids (conn_hallway room_ids
    (conn_kitchen room_ids (conn_living room_ids g))))

/-- Add one `room_list` entry as a catalog-sized, zone-classified node. -/
def build_step (dims : Dims) (g : FloorPlanGraph) (p : RoomId × String) : FloorPlanGraph :=
  let d := dims_get dims p.2
  g.add_room { id := p.1, room_type := p.2, width := d.1, height := d.2
               zone := ROOM_ZONES p.2 }

/-- `build_graph_from_spec`: fresh graph, rooms added from `room_list`
with catalog dimensions and zones, then the default connections. The
dimension catalog is a parameter because the source reads the (mutable,
class-level) `self.ROOM_DIMENSIONS`. -/
def build_graph_from_spec (dims : Dims) (s : Spec) : FloorPlanGraph :=
  let g := (room_list s).foldl (build_step dims) {}
  add_default_connections g

/-! ### Overlap repair pass (`_check_overlap`, `_get_overlap_amount`, `_repair_overlaps`) -/

/-- `_check_overlap` with its default `margin = 0.01`. -/
def check_overlap (room1 room2 : RoomNode) : Bool :=
  let margin : ℚ := 0.01
  decide (room1.x < room2.x + room2.width - margin)
  && decide (room1.x + room1.width > room2.x + margin)
  && decide (room1.y < room2.y + room2.height - margin)
  && decide (room1.y + room1.height > room2.y + margin)

/-- `_get_overlap_amount`: clamped intersection extents along x and y. -/
def get_overlap_amount (room1 room2 : RoomNode) : ℚ × ℚ :=
  ( max 0 (min (room1.x + room1.width) (room2.x + room2.width) - max room1.x room2.x)
  , max 0 (min (room1.y + room1.height) (room2.y + room2.height) - max room1.y room2.y) )

/-- The push-apart update applied to one overlapping pair: half the
smaller-axis overlap plus a fixed `0.1` margin, along the axis of least
overlap. -/
def push_pair (room1 room2 : RoomNode) : RoomNode × RoomNode :=
  let ov := get_overlap_amount room1 room2
  if ov.1 < ov.2 then
    let push := ov.1 / 2 + 0.1
    if room1.x < room2.x then
      ({ room1 with x := room1.x - push }, { room2 with x := room2.x + push })
    else
      ({ room1 with x := room1.x + push }, { room2 with x := room2.x - push })
  else
    let push := ov.2 / 2 + 0.1
    if room1.y < room2.y then
      ({ room1 with y := room1.y - push }, { room2 with y := room2.y + push })
    else
      ({ room1 with y := room1.y + push }, { room2 with y := room2.y - push })

/-- Inner loop of one repair iteration: `room1` scanned against every
later room (`rooms[i+1:]`), threading the in-place updates of both the
current room and the tail. Returns the final current room, the updated
tail, and whether any overlap was found. -/
def repair_sweep (r : RoomNode) : List RoomNode → RoomNode × List RoomNode × Bool
  | [] => (r, [], false)
  | s :: t =>
    if check_overlap r s then
      let p := push_pair r s
      let rec1 := repair_sweep p.1 t
      (rec1.1, p.2 :: rec1.2.1, true)
    else
      let rec1 := repair_sweep r t
      (rec1.1, s :: rec1.2.1, rec1.2.2)

/-- One full iteration of the repair loop, with an explicit step count
(the sweep preserves list length, so running it with fuel equal to the
list length visits exactly the rooms the Python outer loop does). -/
def repair_pass_aux : Nat → List RoomNode → List RoomNode × Bool
  | 0, rs => (rs, false)
  | _ + 1, [] => ([], false)
  | n + 1, r :: rest =>
    let s := repair_sweep r rest
    let rec1 := repair_pass_aux n s.2.1
    (s.1 :: rec1.1, s.2.2 || rec1.2)

/-- One full iteration of the repair loop: every ordered pair scanned
once, mutations threaded left to right exactly as the nested Python
loops do. -/
def repair_pass (rs : List RoomNode) : List RoomNode × Bool :=
  repair_pass_aux rs.length rs

/-- Up to `n` repair iterations, stopping after the first iteration that
finds no overlap (the `break` in the source). -/
def repair_loop : Nat → List RoomNode → List RoomNode
  | 0, rs => rs
  | n + 1, rs =>
    let p := repair_pass rs
    if p.2 then repair_loop n p.1 else p.1

/-- Translate a non-empty layout so its minimum x and y are zero (the
normalization shift at the end of `_repair_overlaps`, and the body of
`BoundedLayoutGenerator._normalize_layout`, which is the same code). -/
def shift_min_to_origin (rooms : List RoomNode) : List RoomNode :=
  match rooms with
  | [] => []
  | r :: t =>
    let min_x := t.foldl (fun a s => min a s.x) r.x
    let min_y := t.foldl (fun a s => min a s.y) r.y
    (r :: t).map (fun s => { s with x := s.x - min_x, y := s.y - min_y })

/-- `_repair_overlaps` with its default `max_iterations = 50`. Note the
early return when fewer than two rooms are given: the normalization
shift is skipped in that case. -/
def repair_overlaps (rooms : List RoomNode) : List RoomNode :=
  if rooms.length < 2 then rooms
  else shift_min_to_origin (repair_loop 50 rooms)

/-! ### Door/connection resolver (`_find_shared_wall`,
`_calculate_door_positions`) -/

/-- `_find_shared_wall`: ordered checks for a shared vertical or
horizontal wall within tolerance `0.1`, returning the wall side (from
`room1`'s point of view) and the overlap interval. Each Python `return`
fires only when both its outer face-proximity test and its inner
positive-overlap test hold, so the fall-through chain is an if-chain on
the conjunctions. -/
def find_shared_wall (room1 room2 : RoomNode) : Option (Wall × ℚ × ℚ) :=
  let tolerance : ℚ := 0.1
  let b1 := room1.bounds
  let b2 := room2.bounds
  if |b1.maxX - b2.minX| < tolerance ∧ max b1.minY b2.minY < min b1.maxY b2.maxY then
    some (.east, max b1.minY b2.minY, min b1.maxY b2.maxY)
  else if |b1.minX - b2.maxX| < tolerance ∧ max b1.minY b2.minY < min b1.maxY b2.maxY then
    some (.west, max b1.minY b2.minY, min b1.maxY b2.maxY)
  else if |b1.maxY - b2.minY| < tolerance ∧ max b1.minX b2.minX < min b1.maxX b2.maxX then
    some (.north, max b1.minX b2.minX, min b1.maxX b2.maxX)
  else if |b1.minY - b2.maxY| < tolerance ∧ max b1.minX b2.minX < min b1.maxX b2.maxX then
    some (.south, max b1.minX b2.minX, min b1.maxX b2.maxX)
  else none

/-- Door placement for a single edge: midpoint of the shared segment on
the named wall of `room1`; the edge is returned unchanged when a room is
missing or no shared wall exists. -/
def resolve_edge (g : FloorPlanGraph) (e : RoomEdge) : RoomEdge :=
  match g.get_node e.room1_id, g.get_node e.room2_id with
  | some room1, some room2 =>
    match find_shared_wall room1 room2 with
    | some (w, s, t) =>
      match w with
      | .north =>
        { e with
          door_wall := some .north
          door_x := (s + t) / 2
          door_y := room1.y + room1.height }
      | .south =>
        { e with
          door_wall := some .south
          door_x := (s + t) / 2
          door_y := room1.y }
      | .east =>
        { e with
          door_wall := some .east
          door_x := room1.x + room1.width
          door_y := (s + t) / 2 }
      | .west =>
        { e with
          door_wall := some .west
          door_x := room1.x
          door_y := (s + t) / 2 }
    | none => e
  | _, _ => e

/-- `_calculate_door_positions`: resolves every edge in place; room nodes
are never modified. -/
def calculate_door_positions (g : FloorPlanGraph) : FloorPlanGraph :=
  { g with edges := g.edges.map (resolve_edge g) }

/-! ### Randomness oracle

Every call into the process-global `random` module is modelled as a
field of this oracle record; theorems quantify over all oracles.
`best_position` abstracts `_find_best_position` (candidate enumeration,
compactness scoring by Euclidean — hence irrational — distances, and a
random top-3 tie-break) and `fallback_position` abstracts
`_find_fallback_position` (a spiral search using `cos`/`sin` of degree
angles, then an overflow grid cell): both are nondeterministic total
searches whose only contract used by any claim is that they produce some
position, `best_position` possibly none. -/
structure Rand where
  use_template : Bool
  template_choice : Nat
  scale_jitter_x : ℚ
  scale_jitter_y : ℚ
  dim_variation : RoomId → ℚ × ℚ
  sqrt_approx : ℚ → ℚ
  shuffle_secondary : List RoomId → List RoomId
  shuffle_zone : Zone → List RoomId → List RoomId
  best_position : RoomNode → List RoomNode → Option (ℚ × ℚ)
  fallback_position : RoomNode → List RoomNode → ℚ × ℚ
  jitter_x : ℚ
  jitter_y : ℚ
  mirror_h : Bool
  mirror_v : Bool

/-- `_randomize_dimension` with its default `min_val = 2.0`; `variation`
is the `random.uniform(-0.15, 0.15)` draw. -/
def randomize_dimension (variation value : ℚ) : ℚ :=
  max 2.0 (value * (1 + variation))

/-- `_randomize_room_dimensions`: every node's width and height get an
independent variation draw. -/
def randomize_room_dimensions (var : RoomId → ℚ × ℚ) (g : FloorPlanGraph) : FloorPlanGraph :=
  { g with nodes := g.nodes.map (fun p =>
      (p.1, { p.2 with
              width := randomize_dimension (var p.1).1 p.2.width
              height := randomize_dimension (var p.1).2 p.2.height })) }

/-- `_adjust_rooms_for_bounds` (only reachable when plot bounds are
passed to `optimize_layout`; every call site in this subsystem passes
none). `sqrtA` stands for the `** 0.5` square root. -/
def adjust_rooms_for_bounds (sqrtA : ℚ → ℚ) (g : FloorPlanGraph)
    (max_width max_height : ℚ) : FloorPlanGraph :=
  if g.nodes.isEmpty then g
  else
    let total := (g.nodes.map (fun p => p.2.width * p.2.height)).sum
    let avail := max_width * max_height * 0.85
    let g1 :=
      if total > avail then
        let sf := max 0.6 (sqrtA (avail / total))
        { g with nodes := g.nodes.map (fun p =>
            (p.1, { p.2 with
                    width := max 2.5 (p.2.width * sf)
                    height := max 2.5 (p.2.height * sf) })) }
      else g
    { g1 with nodes := g1.nodes.map (fun p =>
        (p.1, { p.2 with
                width := min p.2.width (max_width * 0.7)
                height := min p.2.height (max_height * 0.7) })) }

/-! ### Dynamic placement engine (`_get_placement_order`,
`_place_rooms_constrained`) -/

/-- Move one key from `remaining` to the end of `order` if it is still
pending (the repeated `if x in remaining: order.append(x);
remaining.remove(x)` idiom). -/
def order_step (st : List RoomId × List RoomId) (rid : RoomId) : List RoomId × List RoomId :=
  if st.2.contains rid then (st.1 ++ [rid], st.2.erase rid) else st

/-- `_get_placement_order`: living room first, then the shuffled
secondary priorities, then master bedroom and en-suite, then the
remaining rooms zone by zone (each zone's list shuffled). -/
def get_placement_order (rand : Rand) (g : FloorPlanGraph) : List RoomId :=
  let st0 : List RoomId × List RoomId := ([], g.keys)
  let st1 := order_step st0 .living_room
  let st2 := (rand.shuffle_secondary [.kitchen, .dining_room, .hallway]).foldl order_step st1
  let st3 := order_step st2 .master_bedroom
  let st4 := order_step st3 .en_suite
  let st5 := [Zone.pub, Zone.priv, Zone.service].foldl (fun st z =>
    let zone_rooms := st.2.filter (fun rid => (g.get_node rid).map RoomNode.zone = some z)
    (rand.shuffle_zone z zone_rooms).foldl order_step st) st4
  st5.1

/-- `_place_rooms_constrained`: the first room is anchored at the origin;
every later room takes the best position next to a placed connected
neighbour when one exists, otherwise the fallback position. Placement
mutates the node in the graph (modelled by the overwriting `add_room`)
and appends it to the placed list. The `none` lookup branch is
unreachable for engine-built graphs (Python would raise `KeyError`). -/
def place_step (rand : Rand) (gp : FloorPlanGraph × List RoomNode) (rid : RoomId) :
    FloorPlanGraph × List RoomNode :=
  match gp.1.get_node rid with
  | none => gp
  | some room =>
    let pos :=
      if gp.2.isEmpty then ((0 : ℚ), (0 : ℚ))
      else
        match rand.best_position room gp.2 with
        | some p => p
        | none => rand.fallback_position room gp.2
    let room1 := { room with x := pos.1, y := pos.2, placed := true }
    (gp.1.add_room room1, gp.2 ++ [room1])

/-- The room record `place_step` stores and appends (same `let pos`
computation, factored out for reasoning). -/
def placed_room (rand : Rand) (room : RoomNode) (acc : List RoomNode) : RoomNode :=
  let pos :=
    if acc.isEmpty then ((0 : ℚ), (0 : ℚ))
    else
      match rand.best_position room acc with
      | some p => p
      | none => rand.fallback_position room acc
  { room with x := pos.1, y := pos.2, placed := true }

/-- Iteration of `_place_rooms_constrained` over the placement order. -/
def place_rooms_constrained (rand : Rand) (g : FloorPlanGraph) :
    FloorPlanGraph × List RoomNode :=
  let order := get_placement_order rand g
  order.foldl (place_step rand) (g, [])

/-- `_add_position_jitter` with its caller's `jitter_amount = 0.3`: a
whole-layout shift, then optional horizontal and vertical mirroring. -/
def add_position_jitter (rand : Rand) (rooms : List RoomNode) : List RoomNode :=
  match rooms with
  | [] => []
  | r :: t =>
    let rooms1 := (r :: t).map (fun s =>
      { s with x := s.x + rand.jitter_x, y := s.y + rand.jitter_y })
    let rooms2 :=
      if rand.mirror_h then
        match rooms1 with
        | [] => rooms1
        | r1 :: t1 =>
          let max_x := t1.foldl (fun a s => max a (s.x + s.width)) (r1.x + r1.width)
          rooms1.map (fun s => { s with x := max_x - s.x - s.width })
      else rooms1
    if rand.mirror_v then
      match rooms2 with
      | [] => rooms2
      | r2 :: t2 =>
        let max_y := t2.foldl (fun a s => max a (s.y + s.height)) (r2.y + r2.height)
        rooms2.map (fun s => { s with y := max_y - s.y - s.height })
    else rooms2

/-- Write the (mutated) placed-room list back into the node mapping.
In the source the list entries and the dict values are the same Python
objects, so a coordinate update through either is visible through both;
this function models that aliasing at each pipeline boundary. -/
def sync_rooms (g : FloorPlanGraph) (rooms : List RoomNode) : FloorPlanGraph :=
  { g with nodes := g.nodes.map (fun p =>
      match rooms.find? (fun r => r.id = p.1) with
      | some r => (p.1, r)
      | none => p) }

/-! ### Template engine (`LAYOUT_TEMPLATES`, `_generate_from_template`) -/

/-- A template slot rectangle `(x, y, width, height)`. -/
structure Rect where
  x : ℚ
  y : ℚ
  w : ℚ
  h : ℚ
deriving DecidableEq, Repr

/-- A hand-authored archetype: name plus room-key → rectangle mapping in
insertion order. -/
structure Template where
  name : String
  rooms : List (RoomId × Rect)
deriving DecidableEq, Repr

/-- The eight hardcoded `LAYOUT_TEMPLATES`. -/
def LAYOUT_TEMPLATES : List Template :=
  [ { name := "L-Shape Right Wing"
    , rooms :=
      [ (.living_room, ⟨0, 0, 5.5, 4.5⟩)
      , (.kitchen, ⟨5.5, 0, 4.0, 3.5⟩)
      , (.dining_room, ⟨5.5, 3.5, 4.0, 3.5⟩)
      , (.hallway, ⟨0, 4.5, 2.0, 6.0⟩)
      , (.master_bedroom, ⟨2.0, 4.5, 4.5, 4.0⟩)
      , (.en_suite, ⟨2.0, 8.5, 2.5, 2.5⟩)
      , (.bedroom 2, ⟨6.5, 4.5, 3.5, 3.5⟩)
      , (.bedroom 3, ⟨6.5, 8.0, 3.5, 3.5⟩)
      , (.bathroom 1, ⟨4.5, 8.5, 2.0, 2.5⟩) ] }
  , { name := "Linear Corridor"
    , rooms :=
      [ (.living_room, ⟨0, 0, 5.0, 4.5⟩)
      , (.dining_room, ⟨5.0, 0, 4.0, 3.5⟩)
      , (.kitchen, ⟨9.0, 0, 4.0, 3.5⟩)
      , (.hallway, ⟨0, 4.5, 13.0, 1.5⟩)
      , (.master_bedroom, ⟨0, 6.0, 4.5, 4.0⟩)
      , (.en_suite, ⟨0, 10.0, 2.5, 2.5⟩)
      , (.bedroom 2, ⟨4.5, 6.0, 3.5, 3.5⟩)
      , (.bedroom 3, ⟨8.0, 6.0, 3.5, 3.5⟩)
      , (.bathroom 1, ⟨11.5, 6.0, 2.5, 2.5⟩) ] }
  , { name := "Compact Square"
    , rooms :=
      [ (.living_room, ⟨0, 0, 5.0, 4.0⟩)
      , (.kitchen, ⟨5.0, 0, 3.5, 3.5⟩)
      , (.dining_room, ⟨0, 4.0, 4.0, 3.0⟩)
      , (.hallway, ⟨4.0, 3.5, 1.5, 4.0⟩)
      , (.master_bedroom, ⟨5.5, 3.5, 4.0, 4.0⟩)
      , (.en_suite, ⟨8.0, 7.5, 2.5, 2.5⟩)
      , (.bedroom 2, ⟨0, 7.0, 3.5, 3.5⟩)
      , (.bedroom 3, ⟨3.5, 7.5, 3.0, 3.0⟩)
      , (.bathroom 1, ⟨5.5, 7.5, 2.5, 2.5⟩) ] }
  , { name := "U-Shape Layout"
    , rooms :=
      [ (.living_room, ⟨0, 0, 5.5, 5.0⟩)
      , (.kitchen, ⟨0, 5.0, 4.0, 3.5⟩)
      , (.dining_room, ⟨4.0, 5.0, 3.5, 3.5⟩)
      , (.hallway, ⟨5.5, 0, 1.5, 5.0⟩)
      , (.master_bedroom, ⟨7.0, 0, 4.5, 4.0⟩)
      , (.en_suite, ⟨7.0, 4.0, 2.5, 2.5⟩)
      , (.bedroom 2, ⟨9.5, 4.0, 3.5, 3.5⟩)
      , (.bedroom 3, ⟨7.0, 6.5, 3.5, 3.5⟩)
      , (.bathroom 1, ⟨10.5, 6.5, 2.5, 2.5⟩) ] }
  , { name := "Split Offset"
    , rooms :=
      [ (.living_room, ⟨0, 2, 5.5, 4.5⟩)
      , (.kitchen, ⟨5.5, 0, 4.0, 3.5⟩)
      , (.dining_room, ⟨5.5, 3.5, 4.0, 3.0⟩)
      , (.hallway, ⟨0, 6.5, 9.5, 1.5⟩)
      , (.master_bedroom, ⟨0, 8.0, 4.5, 4.0⟩)
      , (.en_suite, ⟨4.5, 8.0, 2.5, 2.5⟩)
      , (.bedroom 2, ⟨0, 0, 3.5, 2.0⟩)
      , (.bedroom 3, ⟨7.0, 8.0, 3.5, 3.5⟩)
      , (.bathroom 1, ⟨4.5, 10.5, 2.5, 2.5⟩) ] }
  , { name := "Center Hall Colonial"
    , rooms :=
      [ (.living_room, ⟨0, 0, 5.0, 4.5⟩)
      , (.dining_room, ⟨5.0, 0, 4.5, 4.5⟩)
      , (.kitchen, ⟨9.5, 0, 4.0, 4.5⟩)
      , (.hallway, ⟨5.0, 4.5, 4.5, 2.0⟩)
      , (.master_bedroom, ⟨0, 4.5, 5.0, 4.5⟩)
      , (.en_suite, ⟨0, 9.0, 2.5, 2.5⟩)
      , (.bedroom 2, ⟨9.5, 4.5, 4.0, 4.0⟩)
      , (.bedroom 3, ⟨5.0, 6.5, 4.5, 3.5⟩)
      , (.bathroom 1, ⟨2.5, 9.0, 2.5, 2.5⟩) ] }
  , { name := "Open Plan Modern"
    , rooms :=
      [ (.living_room, ⟨0, 0, 6.0, 5.0⟩)
      , (.kitchen, ⟨6.0, 0, 4.5, 4.0⟩)
      , (.dining_room, ⟨6.0, 4.0, 4.5, 3.0⟩)
      , (.hallway, ⟨0, 5.0, 6.0, 1.5⟩)
      , (.master_bedroom, ⟨0, 6.5, 5.0, 4.5⟩)
      , (.en_suite, ⟨5.0, 6.5, 2.5, 2.5⟩)
      , (.bedroom 2, ⟨7.5, 7.0, 3.5, 4.0⟩)
      , (.bedroom 3, ⟨0, 11.0, 3.5, 3.5⟩)
      , (.bathroom 1, ⟨5.0, 9.0, 2.5, 2.5⟩) ] }
  , { name := "Ranch Wide"
    , rooms :=
      [ (.living_room, ⟨4.0, 0, 6.0, 4.5⟩)
      , (.kitchen, ⟨10.0, 0, 4.0, 4.0⟩)
      , (.dining_room, ⟨0, 0, 4.0, 4.0⟩)
      , (.hallway, ⟨4.0, 4.5, 10.0, 1.5⟩)
      , (.master_bedroom, ⟨0, 4.0, 4.5, 4.5⟩)
      , (.en_suite, ⟨0, 8.5, 2.5, 2.5⟩)
      , (.bedroom 2, ⟨4.5, 6.0, 4.0, 3.5⟩)
      , (.bedroom 3, ⟨8.5, 6.0, 4.0, 3.5⟩)
      , (.bathroom 1, ⟨12.5, 6.0, 2.5, 3.0⟩) ] }
  ]

/-- Template-room lookup `template_rooms.get(key, default)`. -/
def tmpl_get (rooms : List (RoomId × Rect)) (k : RoomId) (dflt : Rect) : Rect :=
  ((rooms.find? (fun p => p.1 = k)).map Prod.snd).getD dflt

/-- Template-room membership `key in template_rooms`. -/
def tmpl_mem (rooms : List (RoomId × Rect)) (k : RoomId) : Bool :=
  (rooms.map Prod.fst).contains k

/-- The `rooms_to_create` list assembled by `_generate_from_template`:
`(room_id, room_type, unscaled rect)` triples in the source's order,
including the offset fallbacks for extra bedrooms/bathrooms and the
fixed fallback slots for study and garage. -/
def rooms_to_create (s : Spec) (template_rooms : List (RoomId × Rect)) :
    List (RoomId × String × Rect) :=
  let bedroom_templates := (template_rooms.map Prod.fst).filter RoomId.startsBedroom
  let bathroom_templates := (template_rooms.map Prod.fst).filter RoomId.startsBathroom
  (if s.has_living ∧ tmpl_mem template_rooms .living_room then
    [(RoomId.living_room, "living_room", tmpl_get template_rooms .living_room ⟨0,0,0,0⟩)] else [])
  ++ (if s.has_kitchen ∧ tmpl_mem template_rooms .kitchen then
    [(RoomId.kitchen, "kitchen", tmpl_get template_rooms .kitchen ⟨0,0,0,0⟩)] else [])
  ++ (if s.has_dining ∧ tmpl_mem template_rooms .dining_room then
    [(RoomId.dining_room, "dining_room", tmpl_get template_rooms .dining_room ⟨0,0,0,0⟩)] else [])
  ++ (if tmpl_mem template_rooms .hallway ∧ 0 < s.num_bedrooms then
    [(RoomId.hallway, "hallway", tmpl_get template_rooms .hallway ⟨0,0,0,0⟩)] else [])
  ++ (if 0 < s.num_bedrooms ∧ tmpl_mem template_rooms .master_bedroom then
    [(RoomId.master_bedroom, "master_bedroom", tmpl_get template_rooms .master_bedroom ⟨0,0,0,0⟩)] else [])
  ++ (if 0 < s.num_bathrooms ∧ 0 < s.num_bedrooms ∧ tmpl_mem template_rooms .en_suite then
    [(RoomId.en_suite, "en_suite", tmpl_get template_rooms .en_suite ⟨0,0,0,0⟩)] else [])
  ++ (List.range' 1 (s.num_bedrooms - 1)).map (fun i =>
    match bedroom_templates.get? (i - 1) with
    | some k => (RoomId.bedroom (i + 1), "bedroom", tmpl_get template_rooms k ⟨0,0,0,0⟩)
    | none =>
      let base := tmpl_get template_rooms (.bedroom 2) ⟨8, 6, 3.5, 3.5⟩
      (RoomId.bedroom (i + 1), "bedroom",
        ⟨base.x + (i - 1 : ℚ) * 0.5, base.y + (i - 1 : ℚ) * 0.5, base.w, base.h⟩))
  ++ (List.range' 1 (s.num_bathrooms - 1)).map (fun i =>
    match bathroom_templates.get? (i - 1) with
    | some k => (RoomId.bathroom i, "bathroom", tmpl_get template_rooms k ⟨0,0,0,0⟩)
    | none =>
      let base := tmpl_get template_rooms (.bathroom 1) ⟨10, 8, 2.5, 2.5⟩
      (RoomId.bathroom i, "bathroom",
        ⟨base.x + (i - 1 : ℚ) * 0.3, base.y + (i - 1 : ℚ) * 0.3, base.w, base.h⟩))
  ++ (if s.has_study then
      [(RoomId.study, "study",
        if tmpl_mem template_rooms .study then tmpl_get template_rooms .study ⟨0,0,0,0⟩
        else ⟨0, 8, 3.0, 3.0⟩)] else [])
  ++ (if s.has_garage then
      [(RoomId.garage, "garage",
        if tmpl_mem template_rooms .garage then tmpl_get template_rooms .garage ⟨0,0,0,0⟩
        else ⟨12, 0, 6.0, 3.0⟩)] else [])

/-- Node creation for one `rooms_to_create` entry: scaled position,
scaled dimensions clamped to the 2.0 m minimum, zone from the type
table, placed immediately. -/
def template_build_step (scales : ℚ × ℚ) (gp : FloorPlanGraph × List RoomNode)
    (c : RoomId × String × Rect) : FloorPlanGraph × List RoomNode :=
  let room : RoomNode :=
    { id := c.1
      room_type := c.2.1
      width := max 2.0 (c.2.2.w * scales.1)
      height := max 2.0 (c.2.2.h * scales.2)
      zone := ROOM_ZONES c.2.1
      x := c.2.2.x * scales.1
      y := c.2.2.y * scales.2
      placed := true }
  (gp.1.add_room room, gp.2 ++ [room])

/-- `_generate_from_template`: scale factors from the optional plot
bounds (with ±10% jitter draws), node creation with minimum sizes, the
default connections, whole-layout jitter, overlap repair and door
resolution. -/
def generate_from_template (rand : Rand) (s : Spec) (template : Template)
    (max_width max_height : Option ℚ) : FloorPlanGraph × List RoomNode :=
  let template_rooms := template.rooms
  let tmpl_max_x :=
    match template_rooms with
    | [] => 15
    | p :: t => t.foldl (fun a q => max a (q.2.x + q.2.w)) (p.2.x + p.2.w)
  let tmpl_max_y :=
    match template_rooms with
    | [] => 12
    | p :: t => t.foldl (fun a q => max a (q.2.y + q.2.h)) (p.2.y + p.2.h)
  let scales :=
    match max_width, max_height with
    | some mw, some mh =>
      let min_scale := min (mw / tmpl_max_x) (mh / tmpl_max_y)
      (min_scale * rand.scale_jitter_x, min_scale * rand.scale_jitter_y)
    | _, _ => ((1 : ℚ), (1 : ℚ))
  let creations := rooms_to_create s template_rooms
  let gp := creations.foldl (template_build_step scales) (({} : FloorPlanGraph), [])
  let g := add_default_connections gp.1
  let placed := repair_overlaps (add_position_jitter rand gp.2)
  let g := sync_rooms g placed
  (calculate_door_positions g, placed)

/-! ### `optimize_layout` -/

/-- `GraphLayoutOptimizer.optimize_layout`. The template branch is taken
when the caller forces it or the 30% coin (an oracle field) comes up;
otherwise the dynamic graph-based path runs: build, randomize
dimensions, optionally shrink for plot bounds, place, repair, resolve
doors. `dims` is the current (class-level) Room Catalog. -/
def optimize_layout (rand : Rand) (dims : Dims) (s : Spec)
    (max_width : Option ℚ := none) (max_height : Option ℚ := none)
    (use_template : Option Bool := none) : FloorPlanGraph × List RoomNode :=
  let use_tmpl := use_template.getD rand.use_template
  if use_tmpl then
    let template := (LAYOUT_TEMPLATES.get? (rand.template_choice % LAYOUT_TEMPLATES.length)).getD
      { name := "", rooms := [] }
    generate_from_template rand s template max_width max_height
  else
    let g := build_graph_from_spec dims s
    let g := randomize_room_dimensions rand.dim_variation g
    let g :=
      match max_width, max_height with
      | some mw, some mh => adjust_rooms_for_bounds rand.sqrt_approx g mw mh
      | _, _ => g
    let gp := place_rooms_constrained rand g
    let placed := repair_overlaps gp.2
    let g := sync_rooms gp.1 placed
    (calculate_door_positions g, placed)

/-! ### Bounded layout generator (`bounded_layout_generator.py`)

The per-attempt call `optimizer.optimize_layout(spec)` is a stochastic
computation (and, in the source, wrapped in `try/except` that yields no
result on an exception); it is modelled by an oracle
`gen : Nat → Dims → Option (List RoomNode)` giving attempt `k`'s placed
rooms under the catalog dimensions actually in effect, `none` standing
for a raised exception. The placed list and the graph's node mapping
hold the same room objects in the source, so the achieved bounds
(`get_layout_info()['bounds']`) are computed here from the rooms list. -/

/-- The plot bounds record produced by the external area parser. -/
structure AreaBounds where
  width : ℚ
  height : ℚ
  area_sqm : ℚ
deriving DecidableEq, Repr

/-- The contents of the human-readable `message` strings, as structured
data (the numeric fields are exactly the values interpolated into the
corresponding f-string). -/
inductive Message where
  | empty
  | parse_failed
  | unconstrained_ok
  | fitted (target_w target_h scale : ℚ) (attempts : Nat)
  | best_effort (actual_w actual_h target_w target_h overflow_w overflow_h : ℚ)
  | failed_max
deriving DecidableEq, Repr

/-- `GenerationResult` (the `graph` field is omitted: its node mapping
holds the same rooms as `rooms`). -/
structure GenerationResult where
  success : Bool
  rooms : List RoomNode
  bounds_used : Option AreaBounds
  actual_bounds : BBox
  actual_area : ℚ
  scale_factor : ℚ
  attempts : Nat
  message : Message
deriving DecidableEq, Repr

/-- `_calculate_bounds` (also `get_layout_info()['bounds']`): bounding
box of all rooms, `(0,0,0,0)` when empty. -/
def calculate_bounds (rooms : List RoomNode) : BBox :=
  match rooms with
  | [] => ⟨0, 0, 0, 0⟩
  | r :: t =>
    ⟨ t.foldl (fun a s => min a s.x) r.x
    , t.foldl (fun a s => min a s.y) r.y
    , t.foldl (fun a s => max a (s.x + s.width)) (r.x + r.width)
    , t.foldl (fun a s => max a (s.y + s.height)) (r.y + r.height) ⟩

/-- `_normalize_layout`: shift the whole layout so its minimum x and y
are zero (same computation as the repair pass's final shift). -/
def normalize_layout (rooms : List RoomNode) : List RoomNode :=
  shift_min_to_origin rooms

/-- `get_layout_info()['total_area']`. -/
def total_area (rooms : List RoomNode) : ℚ :=
  (rooms.map (fun r => r.width * r.height)).sum

/-- `_generate_scaled`, as a transformer of the class-level Room Catalog
state. In the source, `original_dims = deepcopy(optimizer.ROOM_DIMENSIONS)`
snapshots the class dict, the item assignments
`optimizer.ROOM_DIMENSIONS[room_type] = (w*scale, h*scale)` mutate that
same class dict in place, and the `finally` block's
`optimizer.ROOM_DIMENSIONS = original_dims` only creates an instance
attribute on the local optimizer (discarded when the method returns), so
the class dict stays scaled: the returned catalog is the scaled one. -/
def generate_scaled (run : Dims → Option (List RoomNode)) (class_dims : Dims)
    (scale : ℚ) : Dims × Option (List RoomNode) :=
  let scaled := class_dims.map (fun p => (p.1, p.2.1 * scale, p.2.2 * scale))
  (scaled, run scaled)

/-- The fit score of an attempt: total linear overflow
`max(0, w − target_w) + max(0, h − target_h)`. -/
def fit_score (target : AreaBounds) (w h : ℚ) : ℚ :=
  max 0 (w - target.width) + max 0 (h - target.height)

/-- The scale factor computed at the top of attempt `attempt`:
1 for the first attempt; otherwise, when a best result exists,
`min(width_ratio, height_ratio, previous_scale) * 0.95` from the
*best-so-far* attempt's achieved bounds, else the fallback
`1 − (attempt−1)·0.1`; always clamped to the 0.5 floor. -/
def next_scale (target : AreaBounds) (best_bb : Option BBox) (prev_scale : ℚ)
    (attempt : Nat) : ℚ :=
  let raw :=
    if attempt = 1 then 1
    else
      match best_bb with
      | some bb =>
        let actual_w := bb.maxX - bb.minX
        let actual_h := bb.maxY - bb.minY
        let width_ratio := if 0 < actual_w then target.width / actual_w else 1
        let height_ratio := if 0 < actual_h then target.height / actual_h else 1
        min (min width_ratio height_ratio) prev_scale * 0.95
      | none => 1 - ((attempt : ℚ) - 1) * 0.1
  max raw 0.5

/-- A record of one executed attempt (for stating properties of the retry
loop): the attempt number, the scale applied, the `scale` variable's and
best result's values just before the attempt, and the attempt's outcome. -/
structure AttemptLog where
  attempt : Nat
  scale : ℚ
  prev_scale : ℚ
  best_before : Option BBox
  outcome : Option (List RoomNode)
deriving DecidableEq, Repr

/-- The loop-local state of `_generate_bounded`: the class-level catalog,
the `scale` variable, `best_result`, `best_fit_score` (`none` models
`float('inf')`), plus the attempt log. -/
structure LoopState where
  class_dims : Dims
  scale : ℚ
  best : Option GenerationResult
  best_score : Option ℚ
  log : List AttemptLog
deriving DecidableEq, Repr

/-- Comparison against `best_fit_score`, where `none` is `float('inf')`. -/
def lt_inf (x : ℚ) (b : Option ℚ) : Bool :=
  match b with
  | none => true
  | some v => decide (x < v)

/-- The body of one iteration of the attempt loop: compute the scale, run
scaled generation, update the best tracking and return the fitted result
when both dimensions fit (the loop's early `return`). -/
def bounded_step (gen : Nat → Dims → Option (List RoomNode)) (target : AreaBounds)
    (k : Nat) (st : LoopState) : LoopState ⊕ (LoopState × GenerationResult) :=
  let sc := next_scale target (st.best.map GenerationResult.actual_bounds) st.scale k
  let gres := generate_scaled (gen k) st.class_dims sc
  let entry : AttemptLog :=
    { attempt := k, scale := sc, prev_scale := st.scale
      best_before := st.best.map GenerationResult.actual_bounds, outcome := gres.2 }
  let st1 : LoopState :=
    { st with class_dims := gres.1, scale := sc, log := st.log ++ [entry] }
  match gres.2 with
  | none => Sum.inl st1
  | some rooms =>
    let bb := calculate_bounds rooms
    let actual_w := bb.maxX - bb.minX
    let actual_h := bb.maxY - bb.minY
    let score := fit_score target actual_w actual_h
    let result : GenerationResult :=
      { success := false, rooms := rooms, bounds_used := none, actual_bounds := bb
        actual_area := total_area rooms, scale_factor := sc, attempts := 0
        message := .empty }
    let became_best := lt_inf score st1.best_score
    let result1 :=
      if became_best then { result with attempts := k, bounds_used := some target }
      else result
    let st2 :=
      if became_best then { st1 with best := some result1, best_score := some score }
      else st1
    if actual_w ≤ target.width ∧ actual_h ≤ target.height then
      let rooms1 := normalize_layout result1.rooms
      Sum.inr (st2,
        { result1 with
          success := true
          rooms := rooms1
          actual_bounds := calculate_bounds rooms1
          message := .fitted target.width target.height sc k })
    else Sum.inl st2

/-- The attempt loop, `fuel` attempts remaining, `k` the next attempt
number. -/
def bounded_loop (gen : Nat → Dims → Option (List RoomNode)) (target : AreaBounds) :
    Nat → Nat → LoopState → LoopState × Option GenerationResult
  | 0, _, st => (st, none)
  | fuel + 1, k, st =>
    match bounded_step gen target k st with
    | .inl st1 => bounded_loop gen target fuel (k + 1) st1
    | .inr (st1, res) => (st1, some res)

/-- `MAX_ATTEMPTS`. -/
def MAX_ATTEMPTS : Nat := 10

/-- The whole `_generate_bounded` loop over the ten attempts, returning
the final loop state and the early (fitted) result if one occurred. -/
def generate_bounded_run (gen : Nat → Dims → Option (List RoomNode))
    (class_dims : Dims) (target : AreaBounds) : LoopState × Option GenerationResult :=
  bounded_loop gen target MAX_ATTEMPTS 1
    { class_dims := class_dims, scale := 1, best := none, best_score := none, log := [] }

/-- `_generate_bounded`: the fitted result when some attempt fits, else
the best-effort result (normalized, `success = False`, with the
achieved-vs-target message), else the terminal failure record. Also
returns the class-level catalog as left by the attempts. -/
def generate_bounded (gen : Nat → Dims → Option (List RoomNode))
    (class_dims : Dims) (target : AreaBounds) : Dims × GenerationResult :=
  let run := generate_bounded_run gen class_dims target
  match run.2 with
  | some res => (run.1.class_dims, res)
  | none =>
    match run.1.best with
    | some best =>
      let rooms1 := normalize_layout best.rooms
      let bb := calculate_bounds rooms1
      let actual_w := bb.maxX - bb.minX
      let actual_h := bb.maxY - bb.minY
      (run.1.class_dims,
       { best with
         success := false
         rooms := rooms1
         actual_bounds := bb
         message := .best_effort actual_w actual_h target.width target.height
           (actual_w - target.width) (actual_h - target.height) })
    | none =>
      (run.1.class_dims,
       { success := false, rooms := [], bounds_used := some target
         actual_bounds := ⟨0, 0, 0, 0⟩, actual_area := 0, scale_factor := 1
         attempts := MAX_ATTEMPTS, message := .failed_max })

/-- `_generate_unconstrained`: one fresh generation, returned successful
unconditionally. `opt` stands for the `optimize_layout` call of the
fresh optimizer under the current class catalog. -/
def generate_unconstrained (opt : Dims → FloorPlanGraph × List RoomNode)
    (class_dims : Dims) : GenerationResult :=
  let gr := opt class_dims
  { success := true
    rooms := gr.2
    bounds_used := none
    actual_bounds := calculate_bounds (gr.1.nodes.map Prod.snd)
    actual_area := total_area (gr.1.nodes.map Prod.snd)
    scale_factor := 1
    attempts := 1
    message := .unconstrained_ok }

/-- `BoundedLayoutGenerator.generate` with pre-parsed bounds (the
`area_spec`-string branch belongs to the external parser): unconstrained
when no bounds are supplied, bounded otherwise. Returns the class-level
catalog after the call next to the result. -/
def BoundedLayoutGenerator.generate (gen : Nat → Dims → Option (List RoomNode))
    (opt : Dims → FloorPlanGraph × List RoomNode) (class_dims : Dims)
    (bounds : Option AreaBounds) : Dims × GenerationResult :=
  match bounds with
  | none => (class_dims, generate_unconstrained opt class_dims)
  | some b => generate_bounded gen class_dims b

/-- The fit score of a room list's achieved bounding box (the quantity
the loop compares against `best_fit_score`). -/
def score_of (target : AreaBounds) (rooms : List RoomNode) : ℚ :=
  fit_score target ((calculate_bounds rooms).maxX - (calculate_bounds rooms).minX)
    ((calculate_bounds rooms).maxY - (calculate_bounds rooms).minY)

/-- The loop-state component of a step outcome (the state threaded on,
or the state at the early return). -/
def step_state : LoopState ⊕ (LoopState × GenerationResult) → LoopState
  | .inl s => s
  | .inr p => p.1

/-- Invariant of the best-result tracking: `best`/`best_fit_score` are
both unset (and then no logged attempt produced a layout) or both set,
with the best result coming from a logged attempt, carrying its raw
rooms, bounds and score, and scoring no worse than every logged
attempt. -/
def best_invariant (target : AreaBounds) (st : LoopState) : Prop :=
  match st.best, st.best_score with
  | none, none => ∀ e ∈ st.log, e.outcome = none
  | some b, some v =>
      b.success = false
      ∧ (∃ e ∈ st.log, e.outcome = some b.rooms)
      ∧ v = score_of target b.rooms
      ∧ b.actual_bounds = calculate_bounds b.rooms
      ∧ (∀ e ∈ st.log, ∀ rooms, e.outcome = some rooms → v ≤ score_of target rooms)
  | _, _ => False

/-- Invariant of the scale schedule before attempt `k`: the `scale`
variable is at least the 0.5 floor, equals the deterministic fallback
schedule while no attempt has produced a layout, agrees with the last
logged attempt, and the logged scales are non-increasing with every
entry equal to `next_scale` of its recorded inputs. -/
def c4_inv (target : AreaBounds) (k : Nat) (st : LoopState) : Prop :=
  (0.5 : ℚ) ≤ st.scale
  ∧ st.log.length = k - 1
  ∧ (st.best = none →
      st.scale = (if k = 1 then 1 else max (1 - ((k : ℚ) - 2) * 0.1) 0.5))
  ∧ (∀ e, st.log.getLast? = some e → e.scale = st.scale)
  ∧ List.Chain' (fun e1 e2 => e2.scale ≤ e1.scale) st.log
  ∧ (∀ e ∈ st.log,
      e.scale = next_scale target e.best_before e.prev_scale e.attempt
      ∧ (0.5 : ℚ) ≤ e.scale)

/-! ### Reachable graphs

The public mutators of `FloorPlanGraph` and the engine's pipeline stages
only ever (a) insert a node, (b) append a guarded edge, (c) rewrite the
room value stored under existing keys, or (d) rewrite edges keeping
their endpoint identities. `Reachable` closes the empty graph under
exactly these operations; both generation paths factor through them. -/

/-- Key-preserving rewrite of the stored rooms (dimension randomization,
placement updates, bounds adjustment, and the write-back of a mutated
placed list are all of this shape). -/
def update_rooms (f : RoomId → RoomNode → RoomNode) (g : FloorPlanGraph) : FloorPlanGraph :=
  { g with nodes := g.nodes.map (fun p => (p.1, f p.1 p.2)) }

/-- Graphs reachable through the public operations. The `rooms_update`
rule covers every pipeline stage that only rewrites the room records
stored under the existing keys (dimension randomization, placement
coordinate updates, bounds adjustment, jitter/repair write-back): such a
stage changes neither the key list nor the edge list. -/
inductive Reachable : FloorPlanGraph → Prop where
  | empty : Reachable {}
  | add_room (g : FloorPlanGraph) (r : RoomNode) :
      Reachable g → Reachable (g.add_room r)
  | add_connection (g : FloorPlanGraph) (a b : RoomId) (t : ConnectionType) :
      Reachable g → Reachable (g.add_connection a b t)
  | rooms_update (g g' : FloorPlanGraph) (hk : g'.keys = g.keys)
      (he : g'.edges = g.edges) : Reachable g → Reachable g'
  | doors (g : FloorPlanGraph) :
      Reachable g → Reachable (calculate_door_positions g)

/-- The edge-endpoint invariant: every edge references two identities
present in the node mapping. -/
def edges_valid (g : FloorPlanGraph) : Prop :=
  ∀ e ∈ g.edges, e.room1_id ∈ g.keys ∧ e.room2_id ∈ g.keys

/-! ### Derived observations used in theorem statements -/

/-- Minimum x coordinate over a room list (0 for the empty list). -/
def min_x_of (rooms : List RoomNode) : ℚ :=
  match rooms with
  | [] => 0
  | r :: t => t.foldl (fun a s => min a s.x) r.x

/-- Minimum y coordinate over a room list (0 for the empty list). -/
def min_y_of (rooms : List RoomNode) : ℚ :=
  match rooms with
  | [] => 0
  | r :: t => t.foldl (fun a s => min a s.y) r.y

/-- The overlap interval of the two rooms' extents along the axis
parallel to the given wall side (y for east/west walls, x for
north/south walls). -/
def shared_interval (room1 room2 : RoomNode) (w : Wall) : ℚ × ℚ :=
  match w with
  | .east | .west =>
    (max room1.y room2.y, min (room1.y + room1.height) (room2.y + room2.height))
  | .north | .south =>
    (max room1.x room2.x, min (room1.x + room1.width) (room2.x + room2.width))

/-- The facing boundaries of the two rooms on the named wall side of
`room1` lie within the resolver's 0.1 m tolerance of one another. -/
def faces_close (room1 room2 : RoomNode) (w : Wall) : Prop :=
  match w with
  | .east => |room1.x + room1.width - room2.x| < 0.1
  | .west => |room1.x - (room2.x + room2.width)| < 0.1
  | .north => |room1.y + room1.height - room2.y| < 0.1
  | .south => |room1.y - (room2.y + room2.height)| < 0.1

/-- The two rooms share, within the tolerance, a boundary segment of
positive length on the named wall side of `room1`. -/
def shares_wall_segment (room1 room2 : RoomNode) (w : Wall) : Prop :=
  faces_close room1 room2 w
  ∧ (shared_interval room1 room2 w).1 < (shared_interval room1 room2 w).2

/-- The edge's door coordinate is the midpoint of the shared segment,
placed on the named wall of `room1`. -/
def door_at_midpoint (room1 room2 : RoomNode) (w : Wall) (e : RoomEdge) : Prop :=
  match w with
  | .east => e.door_x = room1.x + room1.width
    ∧ e.door_y = ((shared_interval room1 room2 w).1 + (shared_interval room1 room2 w).2) / 2
  | .west => e.door_x = room1.x
    ∧ e.door_y = ((shared_interval room1 room2 w).1 + (shared_interval room1 room2 w).2) / 2
  | .north => e.door_y = room1.y + room1.height
    ∧ e.door_x = ((shared_interval room1 room2 w).1 + (shared_interval room1 room2 w).2) / 2
  | .south => e.door_y = room1.y
    ∧ e.door_x = ((shared_interval room1 room2 w).1 + (shared_interval room1 room2 w).2) / 2

/-- The architectural rule table as a pure function of the key list:
an edge appears exactly when its rule fires and both endpoint rooms
exist. This is the declarative statement of `_add_default_connections`
(with the code's actual rules: living↔study rather than study↔hallway,
kitchen↔dining as an extra open connection, and no kitchen↔hallway
edge). -/
def rule_edges (ids : List RoomId) : List RoomEdge :=
  (if ids.contains RoomId.living_room ∧ ids.contains RoomId.kitchen then
    [{ room1_id := .living_room, room2_id := .kitchen, connection_type := .openArch }] else [])
  ++ (if ids.contains RoomId.living_room ∧ ids.contains RoomId.dining_room then
    [{ room1_id := .living_room, room2_id := .dining_room, connection_type := .openArch }] else [])
  ++ (if ids.contains RoomId.living_room ∧ ids.contains RoomId.hallway then
    [{ room1_id := .living_room, room2_id := .hallway, connection_type := .door }] else [])
  ++ (if ids.contains RoomId.living_room ∧ ids.contains RoomId.study then
    [{ room1_id := .living_room, room2_id := .study, connection_type := .door }] else [])
  ++ (if ids.contains RoomId.kitchen ∧ ids.contains RoomId.dining_room then
    [{ room1_id := .kitchen, room2_id := .dining_room, connection_type := .openArch }] else [])
  ++ (if ids.contains RoomId.hallway then
    (if ids.contains RoomId.master_bedroom then
      [{ room1_id := .hallway, room2_id := .master_bedroom, connection_type := .door }] else [])
    ++ ids.flatMap (fun i =>
      (if i.startsBedroom then
        [{ room1_id := .hallway, room2_id := i, connection_type := .door }] else [])
      ++ (if i.startsBathroom then
        [{ room1_id := .hallway, room2_id := i, connection_type := .door }] else []))
    else [])
  ++ (if ids.contains RoomId.en_suite ∧ ids.contains RoomId.master_bedroom then
    [{ room1_id := .master_bedroom, room2_id := .en_suite, connection_type := .door }] else [])
  ++ (if ids.contains RoomId.garage then
    (if ids.contains RoomId.kitchen then
      [{ room1_id := .garage, room2_id := .kitchen, connection_type := .door }]
    else if ids.contains RoomId.hallway then
      [{ room1_id := .garage, room2_id := .hallway, connection_type := .door }]
    else [])
    else [])

/-! ### Concrete instances used by witnesses and counterexamples -/

/-- A free-standing rectangular room used to build concrete layouts. -/
def mk_box (name : String) (x y w h : ℚ) : RoomNode :=
  { id := .other name, room_type := name, width := w, height := h, x := x, y := y
    placed := true }

/-- Attempt oracle that always produces one oversized 20 × 10 room. -/
def gen_big : Nat → Dims → Option (List RoomNode) :=
  fun _ _ => some [mk_box "big" 0 0 20 10]

/-- Attempt oracle whose first attempt achieves 10.5 × 10 and whose later
attempts achieve 12 × 10 (a worse fit, so the best stays attempt 1). -/
def gen_regress : Nat → Dims → Option (List RoomNode) :=
  fun k _ => if k = 1 then some [mk_box "a" 0 0 10.5 10] else some [mk_box "b" 0 0 12 10]

/-- Attempt oracle producing a small fitting room away from the origin. -/
def gen_fit : Nat → Dims → Option (List RoomNode) :=
  fun _ _ => some [mk_box "ok" 3 4 2 2]

/-- A 10 m × 10 m target footprint. -/
def target10 : AreaBounds := ⟨10, 10, 100⟩

/-- Placeholder for the unconstrained-path generation oracle in calls
that only exercise the bounded path. -/
def opt_unused : Dims → FloorPlanGraph × List RoomNode := fun _ => ({}, [])

/-- A specification requesting living room, kitchen, a study and one
bedroom: the claim's rules would demand study↔hallway and
kitchen↔hallway doors, which the code never adds, and would exclude the
living↔study door the code does add. -/
def c6_spec : Spec :=
  { bedrooms := some 1, bathrooms := some 0, kitchen := some true
    living_room := some true, dining_room := some false
    study := some true, garage := some false }

/-- A two-room graph whose rooms share the x = 2 wall exactly, with one
unresolved door edge between them. -/
def demo_graph : FloorPlanGraph :=
  { nodes := [(.other "L", mk_box "L" 0 0 2 2), (.other "R", mk_box "R" 2 0 2 2)]
    edges := [{ room1_id := .other "L", room2_id := .other "R", connection_type := .door }] }

/-- The placed-room list of a dynamic-path run (`use_template=False`, no
plot bounds), the second component of `optimize_layout`. -/
def dynamic_rooms (rand : Rand) (dims : Dims) (s : Spec) : List RoomNode :=
  (optimize_layout rand dims s none none (some false)).2

/-- A concrete randomness oracle whose shuffles are the identity and
whose draws are all zero (one seed of the source's `random` calls). -/
def id_rand : Rand :=
  { use_template := false
    template_choice := 0
    scale_jitter_x := 0
    scale_jitter_y := 0
    dim_variation := fun _ => (0, 0)
    sqrt_approx := fun _ => 1
    shuffle_secondary := fun l => l
    shuffle_zone := fun _ l => l
    best_position := fun _ _ => none
    fallback_position := fun _ _ => (0, 0)
    jitter_x := 0
    jitter_y := 0
    mirror_h := false
    mirror_v := false }

end ArchiText

/-! ## Theorems -/

namespace ArchiText

/-! ### Helper lemmas about the repair pass -/

theorem repair_sweep_length (r : RoomNode) (l : List RoomNode) :
    (repair_sweep r l).2.1.length = l.length := by
  induction l generalizing r with
  | nil => simp [repair_sweep]
  | cons s t ih =>
    simp only [repair_sweep]
    by_cases h : check_overlap r s = true
    · simp [h, ih]
    · simp [h, ih]

theorem repair_pass_aux_length (n : Nat) (l : List RoomNode) :
    (repair_pass_aux n l).1.length = l.length := by
  induction n generalizing l with
  | zero => simp [repair_pass_aux]
  | succ n ih =>
    cases l with
    | nil => simp [repair_pass_aux]
    | cons r t =>
      simp only [repair_pass_aux, List.length_cons]
      rw [ih, repair_sweep_length]

theorem repair_pass_length (l : List RoomNode) :
    (repair_pass l).1.length = l.length :=
  repair_pass_aux_length l.length l

theorem repair_loop_length (n : Nat) (l : List RoomNode) :
    (repair_loop n l).length = l.length := by
  induction n generalizing l with
  | zero => rfl
  | succ n ih =>
    simp only [repair_loop]
    by_cases h : (repair_pass l).2 = true
    · simp [h, ih, repair_pass_length]
    · simp [h, repair_pass_length]

theorem foldl_min_x_shift (t : List RoomNode) (b c d : ℚ) :
    ((t.map (fun s => { s with x := s.x - c, y := s.y - d })).foldl
        (fun a u => min a u.x) (b - c))
      = t.foldl (fun a u => min a u.x) b - c := by
  induction t generalizing b with
  | nil => rfl
  | cons s t ih =>
    simp only [List.map_cons, List.foldl_cons]
    rw [min_sub_sub_right]
    exact ih _

theorem foldl_min_y_shift (t : List RoomNode) (b c d : ℚ) :
    ((t.map (fun s => { s with x := s.x - c, y := s.y - d })).foldl
        (fun a u => min a u.y) (b - d))
      = t.foldl (fun a u => min a u.y) b - d := by
  induction t generalizing b with
  | nil => rfl
  | cons s t ih =>
    simp only [List.map_cons, List.foldl_cons]
    rw [min_sub_sub_right]
    exact ih _

theorem shift_min_to_origin_min_x (r : RoomNode) (t : List RoomNode) :
    min_x_of (shift_min_to_origin (r :: t)) = 0 := by
  have h1 : min_x_of (shift_min_to_origin (r :: t))
      = ((t.map (fun (s : RoomNode) => { s with x := s.x - t.foldl (fun (a : ℚ) (u : RoomNode) => min a u.x) r.x, y := s.y - t.foldl (fun (a : ℚ) (u : RoomNode) => min a u.y) r.y })).foldl
          (fun (a : ℚ) (u : RoomNode) => min a u.x) (r.x - t.foldl (fun (a : ℚ) (u : RoomNode) => min a u.x) r.x)) := rfl
  rw [h1, foldl_min_x_shift, sub_self]

theorem shift_min_to_origin_min_y (r : RoomNode) (t : List RoomNode) :
    min_y_of (shift_min_to_origin (r :: t)) = 0 := by
  have h1 : min_y_of (shift_min_to_origin (r :: t))
      = ((t.map (fun (s : RoomNode) => { s with x := s.x - t.foldl (fun (a : ℚ) (u : RoomNode) => min a u.x) r.x, y := s.y - t.foldl (fun (a : ℚ) (u : RoomNode) => min a u.y) r.y })).foldl
          (fun (a : ℚ) (u : RoomNode) => min a u.y) (r.y - t.foldl (fun (a : ℚ) (u : RoomNode) => min a u.y) r.y)) := rfl
  rw [h1, foldl_min_y_shift, sub_self]

/-! ### Claim C3 — defaulting of absent specification keys -/

/-- C3 counterexample: the claim says absent keys default to 0/false, so
the empty specification should produce no count- or flag-dependent
rooms; in fact `build_graph_from_spec` on the empty specification
produces a master bedroom (which requires `bedrooms > 0`), a kitchen and
a living room (which require their flags true), because the source's
defaults are `bedrooms = 2`, `bathrooms = 1`, `kitchen = True`,
`living_room = True`. -/
theorem C3_counterexample :
    RoomId.master_bedroom ∈ (build_graph_from_spec ROOM_DIMENSIONS Spec.empty).keys
    ∧ RoomId.kitchen ∈ (build_graph_from_spec ROOM_DIMENSIONS Spec.empty).keys
    ∧ RoomId.living_room ∈ (build_graph_from_spec ROOM_DIMENSIONS Spec.empty).keys := by
  decide

/-- C3 (amended): any absent key among the seven recognised ones is
treated by graph construction as `bedrooms = 2`, `bathrooms = 1`,
`kitchen = true`, `living_room = true`, and `false` for
`dining_room`/`study`/`garage` (unknown extra keys are never read); in
particular the empty specification produces exactly the living room,
kitchen, hallway, master bedroom, one secondary bedroom and the
en-suite. -/
theorem C3_defaults (s : Spec) :
    room_list s = room_list
      { bedrooms := some s.num_bedrooms
        bathrooms := some s.num_bathrooms
        kitchen := some s.has_kitchen
        living_room := some s.has_living
        dining_room := some s.has_dining
        study := some s.has_study
        garage := some s.has_garage }
    ∧ (build_graph_from_spec ROOM_DIMENSIONS Spec.empty).keys
      = [RoomId.living_room, RoomId.kitchen, RoomId.hallway, RoomId.master_bedroom,
         RoomId.bedroom 2, RoomId.en_suite] := by
  exact ⟨rfl, by decide⟩

/-! ### Claim C2 — the Room Catalog is mutated across calls -/

/-- C2 exhibit: a single `BoundedLayoutGenerator.generate` call with a
10 m × 10 m target whose attempts overflow leaves the class-level
`ROOM_DIMENSIONS` scaled (here the `"bedroom"` entry ends at
`3.5 / 512` m after nine 0.5× rescalings), because `_generate_scaled`
mutates the class dict in place and its `finally` block only rebinds an
instance attribute of the discarded optimizer. -/
theorem C2_catalog_mutated :
    dims_get (BoundedLayoutGenerator.generate gen_big opt_unused ROOM_DIMENSIONS
        (some target10)).1 "bedroom" = (7 / 1024, 7 / 1024)
    ∧ dims_get ROOM_DIMENSIONS "bedroom" = (7 / 2, 7 / 2)
    ∧ (BoundedLayoutGenerator.generate gen_big opt_unused ROOM_DIMENSIONS (some target10)).1
      ≠ ROOM_DIMENSIONS := by
  have h1 : dims_get (BoundedLayoutGenerator.generate gen_big opt_unused ROOM_DIMENSIONS
      (some target10)).1 "bedroom" = (7 / 1024, 7 / 1024) := by
    norm_num [BoundedLayoutGenerator.generate, generate_bounded, generate_bounded_run,
      bounded_loop, bounded_step, generate_scaled, next_scale, gen_big, opt_unused,
      target10, ROOM_DIMENSIONS, dims_get, MAX_ATTEMPTS, lt_inf, fit_score,
      calculate_bounds, total_area, normalize_layout, shift_min_to_origin, mk_box,
      List.find?]
  have h2 : dims_get ROOM_DIMENSIONS "bedroom" = (7 / 2, 7 / 2) := by
    norm_num [ROOM_DIMENSIONS, dims_get, List.find?]
  refine ⟨h1, h2, fun h => ?_⟩
  rw [h, h2] at h1
  exact absurd (congrArg Prod.fst h1) (by norm_num)

/-! ### Claim C9 — normalization to the origin after overlap repair -/

/-- C9 counterexample: `_repair_overlaps` returns early (skipping the
final normalization shift) whenever fewer than two rooms are given, so
on the non-empty single-room list whose room sits at x = 5 the minimum
x coordinate after the pass is 5, not 0. Template generation can reach
this state (e.g. a kitchen-only specification). -/
theorem C9_counterexample :
    repair_overlaps [mk_box "solo" 5 3 2 2] = [mk_box "solo" 5 3 2 2]
    ∧ min_x_of (repair_overlaps [mk_box "solo" 5 3 2 2]) = 5 := by
  decide

/-- C9 (amended): after the Overlap Repair Pass returns on any list of
at least two rooms — whether it converged early or exhausted its 50
iterations — the minimum x and y coordinates are zero; a single-room
list is returned unchanged (and the claim's consequence survives on the
dynamic path only because that path anchors a lone first room at the
origin); door resolution never moves a room. -/
theorem C9_repair_normalizes :
    (∀ rooms : List RoomNode, 2 ≤ rooms.length →
      min_x_of (repair_overlaps rooms) = 0 ∧ min_y_of (repair_overlaps rooms) = 0)
    ∧ (∀ r : RoomNode, repair_overlaps [r] = [r])
    ∧ (∀ g : FloorPlanGraph, (calculate_door_positions g).nodes = g.nodes) := by
  refine ⟨?_, fun r => rfl, fun g => rfl⟩
  intro rooms h
  have hlen : ¬ rooms.length < 2 := by omega
  have hloop : (repair_loop 50 rooms).length = rooms.length := repair_loop_length 50 rooms
  rw [repair_overlaps, if_neg hlen]
  cases hrl : repair_loop 50 rooms with
  | nil => rw [hrl] at hloop; simp at hloop; omega
  | cons r t => exact ⟨shift_min_to_origin_min_x r t, shift_min_to_origin_min_y r t⟩

/-- C9 witness: the amended theorem applied to a concrete two-room list
(two unit boxes at x = 4 and x = 9). -/
theorem C9_repair_normalizes_witness :
    min_x_of (repair_overlaps [mk_box "a" 4 2 1 1, mk_box "b" 9 2 1 1]) = 0 :=
  (C9_repair_normalizes.1 [mk_box "a" 4 2 1 1, mk_box "b" 9 2 1 1] (by decide)).1

/-! ### Claim C5 — doors sit at midpoints of genuinely shared walls -/

theorem find_shared_wall_some (room1 room2 : RoomNode) (w : Wall) (s t : ℚ)
    (h : find_shared_wall room1 room2 = some (w, s, t)) :
    shares_wall_segment room1 room2 w ∧ (s, t) = shared_interval room1 room2 w := by
  simp only [find_shared_wall, RoomNode.bounds] at h
  split_ifs at h with h1 h2 h3 h4 <;>
    simp only [Option.some.injEq, Prod.mk.injEq] at h
  · obtain ⟨hw, hs, ht⟩ := h
    subst hw; subst hs; subst ht
    exact ⟨⟨h1.1, h1.2⟩, rfl⟩
  · obtain ⟨hw, hs, ht⟩ := h
    subst hw; subst hs; subst ht
    exact ⟨⟨h2.1, h2.2⟩, rfl⟩
  · obtain ⟨hw, hs, ht⟩ := h
    subst hw; subst hs; subst ht
    exact ⟨⟨h3.1, h3.2⟩, rfl⟩
  · obtain ⟨hw, hs, ht⟩ := h
    subst hw; subst hs; subst ht
    exact ⟨⟨h4.1, h4.2⟩, rfl⟩

theorem find_shared_wall_none (room1 room2 : RoomNode)
    (h : find_shared_wall room1 room2 = none) (w : Wall) :
    ¬ shares_wall_segment room1 room2 w := by
  simp only [find_shared_wall, RoomNode.bounds] at h
  split_ifs at h with h1 h2 h3 h4
  cases w with
  | east => exact fun hs => h1 ⟨hs.1, hs.2⟩
  | west => exact fun hs => h2 ⟨hs.1, hs.2⟩
  | north => exact fun hs => h3 ⟨hs.1, hs.2⟩
  | south => exact fun hs => h4 ⟨hs.1, hs.2⟩

theorem resolve_edge_none1 (g : FloorPlanGraph) (e : RoomEdge)
    (h : g.get_node e.room1_id = none) : resolve_edge g e = e := by
  simp only [resolve_edge, h]

theorem resolve_edge_none2 (g : FloorPlanGraph) (e : RoomEdge) (room1 : RoomNode)
    (h1 : g.get_node e.room1_id = some room1) (h2 : g.get_node e.room2_id = none) :
    resolve_edge g e = e := by
  simp only [resolve_edge, h1, h2]

theorem resolve_edge_nowall (g : FloorPlanGraph) (e : RoomEdge) (room1 room2 : RoomNode)
    (h1 : g.get_node e.room1_id = some room1) (h2 : g.get_node e.room2_id = some room2)
    (hf : find_shared_wall room1 room2 = none) : resolve_edge g e = e := by
  simp only [resolve_edge, h1, h2, hf]

theorem resolve_edge_north (g : FloorPlanGraph) (e : RoomEdge) (room1 room2 : RoomNode)
    (s t : ℚ) (h1 : g.get_node e.room1_id = some room1)
    (h2 : g.get_node e.room2_id = some room2)
    (hf : find_shared_wall room1 room2 = some (.north, s, t)) :
    resolve_edge g e
      = { e with
          door_wall := some .north
          door_x := (s + t) / 2
          door_y := room1.y + room1.height } := by
  simp only [resolve_edge, h1, h2, hf]

theorem resolve_edge_south (g : FloorPlanGraph) (e : RoomEdge) (room1 room2 : RoomNode)
    (s t : ℚ) (h1 : g.get_node e.room1_id = some room1)
    (h2 : g.get_node e.room2_id = some room2)
    (hf : find_shared_wall room1 room2 = some (.south, s, t)) :
    resolve_edge g e
      = { e with
          door_wall := some .south
          door_x := (s + t) / 2
          door_y := room1.y } := by
  simp only [resolve_edge, h1, h2, hf]

theorem resolve_edge_east (g : FloorPlanGraph) (e : RoomEdge) (room1 room2 : RoomNode)
    (s t : ℚ) (h1 : g.get_node e.room1_id = some room1)
    (h2 : g.get_node e.room2_id = some room2)
    (hf : find_shared_wall room1 room2 = some (.east, s, t)) :
    resolve_edge g e
      = { e with
          door_wall := some .east
          door_x := room1.x + room1.width
          door_y := (s + t) / 2 } := by
  simp only [resolve_edge, h1, h2, hf]

theorem resolve_edge_west (g : FloorPlanGraph) (e : RoomEdge) (room1 room2 : RoomNode)
    (s t : ℚ) (h1 : g.get_node e.room1_id = some room1)
    (h2 : g.get_node e.room2_id = some room2)
    (hf : find_shared_wall room1 room2 = some (.west, s, t)) :
    resolve_edge g e
      = { e with
          door_wall := some .west
          door_x := room1.x
          door_y := (s + t) / 2 } := by
  simp only [resolve_edge, h1, h2, hf]

theorem resolve_edge_spec (g : FloorPlanGraph) (e : RoomEdge)
    (hdw : e.door_wall = none) :
    (∀ w, (resolve_edge g e).door_wall = some w →
      ∃ room1 room2,
        g.get_node (resolve_edge g e).room1_id = some room1
        ∧ g.get_node (resolve_edge g e).room2_id = some room2
        ∧ shares_wall_segment room1 room2 w
        ∧ door_at_midpoint room1 room2 w (resolve_edge g e))
    ∧ ((resolve_edge g e).door_wall = none →
      ∀ room1 room2, g.get_node (resolve_edge g e).room1_id = some room1 →
        g.get_node (resolve_edge g e).room2_id = some room2 →
        ∀ w, ¬ shares_wall_segment room1 room2 w) := by
  cases hr1 : g.get_node e.room1_id with
  | none =>
    rw [resolve_edge_none1 g e hr1]
    refine ⟨fun w hw => absurd (hdw.symm.trans hw) (by simp),
      fun _ r1 r2 hl1 hl2 w => ?_⟩
    rw [hr1] at hl1
    cases hl1
  | some room1 =>
    cases hr2 : g.get_node e.room2_id with
    | none =>
      rw [resolve_edge_none2 g e room1 hr1 hr2]
      refine ⟨fun w hw => absurd (hdw.symm.trans hw) (by simp),
        fun _ r1 r2 hl1 hl2 w => ?_⟩
      rw [hr2] at hl2
      cases hl2
    | some room2 =>
      cases hf : find_shared_wall room1 room2 with
      | none =>
        rw [resolve_edge_nowall g e room1 room2 hr1 hr2 hf]
        refine ⟨fun w hw => absurd (hdw.symm.trans hw) (by simp),
          fun _ r1 r2 hl1 hl2 w => ?_⟩
        rw [hr1] at hl1
        rw [hr2] at hl2
        cases hl1
        cases hl2
        exact find_shared_wall_none room1 room2 hf w
      | some wst =>
        obtain ⟨w0, s0, t0⟩ := wst
        obtain ⟨hsh, hint⟩ := find_shared_wall_some room1 room2 w0 s0 t0 hf
        cases w0 with
        | north =>
          rw [resolve_edge_north g e room1 room2 s0 t0 hr1 hr2 hf]
          refine ⟨fun w hw => ?_, fun hnone => by simp at hnone⟩
          simp only [Option.some.injEq] at hw
          subst hw
          exact ⟨room1, room2, hr1, hr2, hsh, rfl, by rw [← hint]⟩
        | south =>
          rw [resolve_edge_south g e room1 room2 s0 t0 hr1 hr2 hf]
          refine ⟨fun w hw => ?_, fun hnone => by simp at hnone⟩
          simp only [Option.some.injEq] at hw
          subst hw
          exact ⟨room1, room2, hr1, hr2, hsh, rfl, by rw [← hint]⟩
        | east =>
          rw [resolve_edge_east g e room1 room2 s0 t0 hr1 hr2 hf]
          refine ⟨fun w hw => ?_, fun hnone => by simp at hnone⟩
          simp only [Option.some.injEq] at hw
          subst hw
          exact ⟨room1, room2, hr1, hr2, hsh, rfl, by rw [← hint]⟩
        | west =>
          rw [resolve_edge_west g e room1 room2 s0 t0 hr1 hr2 hf]
          refine ⟨fun w hw => ?_, fun hnone => by simp at hnone⟩
          simp only [Option.some.injEq] at hw
          subst hw
          exact ⟨room1, room2, hr1, hr2, hsh, rfl, by rw [← hint]⟩

/-- C5: on any graph whose edges start without door data (as every
engine-built graph does), for every edge on which the Door/Connection
Resolver sets a door, the two rooms share — within the 0.1 m tolerance —
a boundary segment of positive length on the named wall side, and the
door coordinate is that segment's midpoint on the wall of the edge's
first room; every edge whose rooms share no such wall (or whose rooms
are missing) is left without a door, and the resolver is a total
function, so no error is raised. -/
theorem C5_doors_on_shared_walls (g : FloorPlanGraph)
    (h0 : ∀ e ∈ g.edges, e.door_wall = none) :
    ∀ e' ∈ (calculate_door_positions g).edges,
      (∀ w, e'.door_wall = some w →
        ∃ room1 room2,
          g.get_node e'.room1_id = some room1 ∧ g.get_node e'.room2_id = some room2
          ∧ shares_wall_segment room1 room2 w
          ∧ door_at_midpoint room1 room2 w e')
      ∧ (e'.door_wall = none →
        ∀ room1 room2, g.get_node e'.room1_id = some room1 →
          g.get_node e'.room2_id = some room2 →
          ∀ w, ¬ shares_wall_segment room1 room2 w) := by
  intro e' he'
  simp only [calculate_door_positions, List.mem_map] at he'
  obtain ⟨e, he, rfl⟩ := he'
  exact resolve_edge_spec g e (h0 e he)

/-- C5 witness: the resolver theorem applied to the concrete two-room
demo graph whose rooms share the x = 2 wall. -/
theorem C5_doors_on_shared_walls_witness :
    (∀ e ∈ demo_graph.edges, e.door_wall = none)
    ∧ (∀ e' ∈ (calculate_door_positions demo_graph).edges,
      (∀ w, e'.door_wall = some w →
        ∃ room1 room2,
          demo_graph.get_node e'.room1_id = some room1
          ∧ demo_graph.get_node e'.room2_id = some room2
          ∧ shares_wall_segment room1 room2 w
          ∧ door_at_midpoint room1 room2 w e')
      ∧ (e'.door_wall = none →
        ∀ room1 room2, demo_graph.get_node e'.room1_id = some room1 →
          demo_graph.get_node e'.room2_id = some room2 →
          ∀ w, ¬ shares_wall_segment room1 room2 w)) :=
  ⟨by decide, C5_doors_on_shared_walls demo_graph (by decide)⟩

/-! ### Claim C10 — edge endpoints always exist in the node mapping -/

theorem add_room_edges (g : FloorPlanGraph) (r : RoomNode) :
    (g.add_room r).edges = g.edges := by
  unfold FloorPlanGraph.add_room
  split_ifs <;> rfl

theorem add_room_keys (g : FloorPlanGraph) (r : RoomNode) :
    (g.add_room r).keys = if g.keys.contains r.id then g.keys else g.keys ++ [r.id] := by
  unfold FloorPlanGraph.add_room
  split_ifs with hc
  · simp only [FloorPlanGraph.keys, List.map_map]
    congr 1
    funext p
    by_cases hp : p.1 = r.id <;> simp [hp]
  · simp [FloorPlanGraph.keys]

theorem mem_keys_add_room (g : FloorPlanGraph) (r : RoomNode) (k : RoomId)
    (h : k ∈ g.keys) : k ∈ (g.add_room r).keys := by
  rw [add_room_keys]
  split_ifs
  · exact h
  · exact List.mem_append_left _ h

theorem add_connection_nodes (g : FloorPlanGraph) (a b : RoomId) (t : ConnectionType) :
    (g.add_connection a b t).nodes = g.nodes := by
  unfold FloorPlanGraph.add_connection
  split_ifs <;> rfl

theorem add_connection_keys (g : FloorPlanGraph) (a b : RoomId) (t : ConnectionType) :
    (g.add_connection a b t).keys = g.keys := by
  simp [FloorPlanGraph.keys, add_connection_nodes]

theorem add_connection_edges (g : FloorPlanGraph) (a b : RoomId) (t : ConnectionType) :
    (g.add_connection a b t).edges
      = if g.keys.contains a ∧ g.keys.contains b
        then g.edges ++ [{ room1_id := a, room2_id := b, connection_type := t }]
        else g.edges := by
  unfold FloorPlanGraph.add_connection
  split_ifs <;> rfl

theorem resolve_edge_ids (g : FloorPlanGraph) (e : RoomEdge) :
    (resolve_edge g e).room1_id = e.room1_id
    ∧ (resolve_edge g e).room2_id = e.room2_id := by
  cases hr1 : g.get_node e.room1_id with
  | none => rw [resolve_edge_none1 g e hr1]; exact ⟨rfl, rfl⟩
  | some room1 =>
    cases hr2 : g.get_node e.room2_id with
    | none => rw [resolve_edge_none2 g e room1 hr1 hr2]; exact ⟨rfl, rfl⟩
    | some room2 =>
      cases hf : find_shared_wall room1 room2 with
      | none => rw [resolve_edge_nowall g e room1 room2 hr1 hr2 hf]; exact ⟨rfl, rfl⟩
      | some wst =>
        obtain ⟨w0, s0, t0⟩ := wst
        cases w0 with
        | north => rw [resolve_edge_north g e room1 room2 s0 t0 hr1 hr2 hf]; exact ⟨rfl, rfl⟩
        | south => rw [resolve_edge_south g e room1 room2 s0 t0 hr1 hr2 hf]; exact ⟨rfl, rfl⟩
        | east => rw [resolve_edge_east g e room1 room2 s0 t0 hr1 hr2 hf]; exact ⟨rfl, rfl⟩
        | west => rw [resolve_edge_west g e room1 room2 s0 t0 hr1 hr2 hf]; exact ⟨rfl, rfl⟩

theorem reachable_edges_valid (g : FloorPlanGraph) (h : Reachable g) : edges_valid g := by
  induction h with
  | empty => intro e he; cases he
  | add_room g r _ ih =>
    intro e he
    rw [add_room_edges] at he
    exact ⟨mem_keys_add_room g r _ (ih e he).1, mem_keys_add_room g r _ (ih e he).2⟩
  | add_connection g a b t _ ih =>
    intro e he
    rw [add_connection_edges] at he
    rw [add_connection_keys]
    split_ifs at he with hg
    · rcases List.mem_append.1 he with h1 | h1
      · exact ih e h1
      · simp only [List.mem_singleton] at h1
        subst h1
        exact ⟨List.elem_iff.1 hg.1, List.elem_iff.1 hg.2⟩
    · exact ih e he
  | rooms_update g g' hk he _ ih =>
    intro e hme
    rw [he] at hme
    rw [hk]
    exact ih e hme
  | doors g _ ih =>
    intro e he
    simp only [calculate_door_positions, List.mem_map] at he
    obtain ⟨e0, he0, rfl⟩ := he
    have hids := resolve_edge_ids g e0
    constructor
    · rw [hids.1]; exact (ih e0 he0).1
    · rw [hids.2]; exact (ih e0 he0).2

theorem add_connection_no_edge (g : FloorPlanGraph) (a b : RoomId) (t : ConnectionType)
    (h : ¬ (g.keys.contains a ∧ g.keys.contains b)) :
    (g.add_connection a b t).edges = g.edges := by
  rw [add_connection_edges, if_neg h]

/-! Reachability of both generation paths. -/

theorem reachable_conn_living (ids : List RoomId) (g : FloorPlanGraph)
    (h : Reachable g) : Reachable (conn_living ids g) := by
  unfold conn_living
  split_ifs <;> first
    | exact h
    | (apply Reachable.add_connection; first
        | exact h
        | (apply Reachable.add_connection; first
            | exact h
            | (apply Reachable.add_connection; first
                | exact h
                | exact Reachable.add_connection _ _ _ _ h)))

theorem reachable_conn_kitchen (ids : List RoomId) (g : FloorPlanGraph)
    (h : Reachable g) : Reachable (conn_kitchen ids g) := by
  unfold conn_kitchen
  split_ifs <;> first
    | exact h
    | exact Reachable.add_connection _ _ _ _ h

theorem reachable_hallway_loop (ids : List RoomId) (g : FloorPlanGraph)
    (h : Reachable g) : Reachable (ids.foldl hallway_loop_step g) := by
  induction ids generalizing g with
  | nil => exact h
  | cons i t ih =>
    simp only [List.foldl_cons]
    apply ih
    unfold hallway_loop_step
    split_ifs <;> first
      | exact h
      | exact Reachable.add_connection _ _ _ _ h
      | exact Reachable.add_connection _ _ _ _ (Reachable.add_connection _ _ _ _ h)

theorem reachable_conn_hallway (ids : List RoomId) (g : FloorPlanGraph)
    (h : Reachable g) : Reachable (conn_hallway ids g) := by
  unfold conn_hallway
  split_ifs with h1 h2
  · exact reachable_hallway_loop ids _ (Reachable.add_connection _ _ _ _ h)
  · exact reachable_hallway_loop ids _ h
  · exact h

theorem reachable_conn_ensuite (ids : List RoomId) (g : FloorPlanGraph)
    (h : Reachable g) : Reachable (conn_ensuite ids g) := by
  unfold conn_ensuite
  split_ifs <;> first
    | exact h
    | exact Reachable.add_connection _ _ _ _ h

theorem reachable_conn_garage (ids : List RoomId) (g : FloorPlanGraph)
    (h : Reachable g) : Reachable (conn_garage ids g) := by
  unfold conn_garage
  split_ifs <;> first
    | exact h
    | exact Reachable.add_connection _ _ _ _ h

theorem reachable_add_default_connections (g : FloorPlanGraph)
    (h : Reachable g) : Reachable (add_default_connections g) :=
  reachable_conn_garage _ _ (reachable_conn_ensuite _ _ (reachable_conn_hallway _ _
    (reachable_conn_kitchen _ _ (reachable_conn_living _ _ h))))

theorem reachable_foldl_build (dims : Dims) (l : List (RoomId × String))
    (g : FloorPlanGraph) (h : Reachable g) : Reachable (l.foldl (build_step dims) g) := by
  induction l generalizing g with
  | nil => exact h
  | cons p t ih =>
    simp only [List.foldl_cons]
    exact ih _ (Reachable.add_room _ _ h)

theorem reachable_build_graph_from_spec (dims : Dims) (s : Spec) :
    Reachable (build_graph_from_spec dims s) :=
  reachable_add_default_connections _
    (reachable_foldl_build dims (room_list s) {} Reachable.empty)

theorem keys_map_node_rewrite (g : FloorPlanGraph)
    (f : RoomId × RoomNode → RoomNode) :
    (FloorPlanGraph.mk (g.nodes.map (fun p => (p.1, f p))) g.edges).keys = g.keys := by
  simp only [FloorPlanGraph.keys, List.map_map]
  rfl

theorem randomize_keys (var : RoomId → ℚ × ℚ) (g : FloorPlanGraph) :
    (randomize_room_dimensions var g).keys = g.keys :=
  keys_map_node_rewrite g _

theorem randomize_edges (var : RoomId → ℚ × ℚ) (g : FloorPlanGraph) :
    (randomize_room_dimensions var g).edges = g.edges := rfl

theorem reachable_randomize (var : RoomId → ℚ × ℚ) (g : FloorPlanGraph)
    (h : Reachable g) : Reachable (randomize_room_dimensions var g) :=
  Reachable.rooms_update g _ (randomize_keys var g) (randomize_edges var g) h

theorem adjust_keys (sq : ℚ → ℚ) (g : FloorPlanGraph) (mw mh : ℚ) :
    (adjust_rooms_for_bounds sq g mw mh).keys = g.keys := by
  simp only [adjust_rooms_for_bounds]
  split_ifs <;> simp only [FloorPlanGraph.keys, List.map_map] <;> rfl

theorem adjust_edges (sq : ℚ → ℚ) (g : FloorPlanGraph) (mw mh : ℚ) :
    (adjust_rooms_for_bounds sq g mw mh).edges = g.edges := by
  simp only [adjust_rooms_for_bounds]
  split_ifs <;> rfl

theorem reachable_adjust (sq : ℚ → ℚ) (g : FloorPlanGraph) (mw mh : ℚ)
    (h : Reachable g) : Reachable (adjust_rooms_for_bounds sq g mw mh) :=
  Reachable.rooms_update g _ (adjust_keys sq g mw mh) (adjust_edges sq g mw mh) h

theorem reachable_place_fold (rand : Rand) (order : List RoomId)
    (gp : FloorPlanGraph × List RoomNode) (h : Reachable gp.1) :
    Reachable ((order.foldl (place_step rand) gp).1) := by
  induction order generalizing gp with
  | nil => exact h
  | cons i t ih =>
    simp only [List.foldl_cons]
    apply ih
    unfold place_step
    cases gp.1.get_node i with
    | none => exact h
    | some room => exact Reachable.add_room _ _ h

theorem reachable_place_rooms (rand : Rand) (g : FloorPlanGraph)
    (h : Reachable g) : Reachable (place_rooms_constrained rand g).1 :=
  reachable_place_fold rand _ (g, []) h

theorem sync_rooms_keys (g : FloorPlanGraph) (rooms : List RoomNode) :
    (sync_rooms g rooms).keys = g.keys := by
  unfold sync_rooms
  simp only [FloorPlanGraph.keys, List.map_map]
  congr 1
  funext p
  simp only [Function.comp]
  cases hfind : rooms.find? (fun r => r.id = p.1) <;> rfl

theorem sync_rooms_edges (g : FloorPlanGraph) (rooms : List RoomNode) :
    (sync_rooms g rooms).edges = g.edges := rfl

theorem reachable_sync (g : FloorPlanGraph) (rooms : List RoomNode)
    (h : Reachable g) : Reachable (sync_rooms g rooms) :=
  Reachable.rooms_update g _ (sync_rooms_keys g rooms) (sync_rooms_edges g rooms) h

theorem reachable_template_fold (scales : ℚ × ℚ) (l : List (RoomId × String × Rect))
    (gp : FloorPlanGraph × List RoomNode) (h : Reachable gp.1) :
    Reachable ((l.foldl (template_build_step scales) gp).1) := by
  induction l generalizing gp with
  | nil => exact h
  | cons c t ih =>
    simp only [List.foldl_cons]
    exact ih _ (Reachable.add_room _ _ h)

theorem reachable_generate_from_template (rand : Rand) (s : Spec) (tm : Template)
    (mw mh : Option ℚ) : Reachable (generate_from_template rand s tm mw mh).1 := by
  unfold generate_from_template
  exact Reachable.doors _ (reachable_sync _ _ (reachable_add_default_connections _
    (reachable_template_fold _ _ _ Reachable.empty)))

theorem reachable_optimize_layout (rand : Rand) (dims : Dims) (s : Spec)
    (mw mh : Option ℚ) (ut : Option Bool) :
    Reachable (optimize_layout rand dims s mw mh ut).1 := by
  simp only [optimize_layout]
  split_ifs
  · exact reachable_generate_from_template rand s _ mw mh
  · apply Reachable.doors
    apply reachable_sync
    apply reachable_place_rooms
    cases mw with
    | none => exact reachable_randomize _ _ (reachable_build_graph_from_spec dims s)
    | some w =>
      cases mh with
      | none => exact reachable_randomize _ _ (reachable_build_graph_from_spec dims s)
      | some hgt =>
        exact reachable_adjust _ _ w hgt
          (reachable_randomize _ _ (reachable_build_graph_from_spec dims s))

/-- C10: every floor plan graph reachable through the public operations
(`add_room`, `add_connection`, the room-record rewriting pipeline stages
and door resolution — hence the output graph of either generation path)
satisfies the invariant that each edge's two room identities are keys of
the node mapping; and an `add_connection` whose endpoints are not both
present leaves the edge list unchanged. -/
theorem C10_edges_reference_nodes :
    (∀ g : FloorPlanGraph, Reachable g → edges_valid g)
    ∧ (∀ (g : FloorPlanGraph) (a b : RoomId) (t : ConnectionType),
        ¬ (g.keys.contains a ∧ g.keys.contains b) →
        (g.add_connection a b t).edges = g.edges)
    ∧ (∀ (rand : Rand) (dims : Dims) (s : Spec) (mw mh : Option ℚ) (ut : Option Bool),
        edges_valid (optimize_layout rand dims s mw mh ut).1) :=
  ⟨reachable_edges_valid,
   add_connection_no_edge,
   fun rand dims s mw mh ut =>
     reachable_edges_valid _ (reachable_optimize_layout rand dims s mw mh ut)⟩

/-- C10 witness: the invariant theorem applied to the graph built from
the empty specification (reachable through the generation path), and
the no-edge clause applied to an `add_connection` on the empty graph. -/
theorem C10_edges_reference_nodes_witness :
    edges_valid (build_graph_from_spec ROOM_DIMENSIONS Spec.empty)
    ∧ (FloorPlanGraph.add_connection {} (.other "a") (.other "b") .door).edges
      = ({} : FloorPlanGraph).edges :=
  ⟨C10_edges_reference_nodes.1 _ (reachable_build_graph_from_spec ROOM_DIMENSIONS Spec.empty),
   C10_edges_reference_nodes.2.1 {} (.other "a") (.other "b") .door (by decide)⟩

/-! ### Claim C6 — the fixed-rule edge set -/

theorem conn_living_edges (ids : List RoomId) (g : FloorPlanGraph) (hk : g.keys = ids) :
    (conn_living ids g).edges = g.edges
      ++ (if ids.contains RoomId.living_room ∧ ids.contains RoomId.kitchen then
        [{ room1_id := .living_room, room2_id := .kitchen, connection_type := .openArch }] else [])
      ++ (if ids.contains RoomId.living_room ∧ ids.contains RoomId.dining_room then
        [{ room1_id := .living_room, room2_id := .dining_room, connection_type := .openArch }] else [])
      ++ (if ids.contains RoomId.living_room ∧ ids.contains RoomId.hallway then
        [{ room1_id := .living_room, room2_id := .hallway, connection_type := .door }] else [])
      ++ (if ids.contains RoomId.living_room ∧ ids.contains RoomId.study then
        [{ room1_id := .living_room, room2_id := .study, connection_type := .door }] else []) := by
  by_cases h1 : RoomId.living_room ∈ ids <;>
  by_cases h2 : RoomId.kitchen ∈ ids <;>
  by_cases h3 : RoomId.dining_room ∈ ids <;>
  by_cases h4 : RoomId.hallway ∈ ids <;>
  by_cases h5 : RoomId.study ∈ ids <;>
    simp [conn_living, h1, h2, h3, h4, h5, add_connection_edges, add_connection_keys, hk]

theorem conn_living_keys (ids : List RoomId) (g : FloorPlanGraph) :
    (conn_living ids g).keys = g.keys := by
  unfold conn_living
  split_ifs <;> simp [add_connection_keys]

theorem conn_kitchen_edges (ids : List RoomId) (g : FloorPlanGraph) (hk : g.keys = ids) :
    (conn_kitchen ids g).edges = g.edges
      ++ (if ids.contains RoomId.kitchen ∧ ids.contains RoomId.dining_room then
        [{ room1_id := .kitchen, room2_id := .dining_room, connection_type := .openArch }] else []) := by
  by_cases h1 : RoomId.kitchen ∈ ids <;>
  by_cases h2 : RoomId.dining_room ∈ ids <;>
    simp [conn_kitchen, h1, h2, add_connection_edges, hk]

theorem conn_kitchen_keys (ids : List RoomId) (g : FloorPlanGraph) :
    (conn_kitchen ids g).keys = g.keys := by
  unfold conn_kitchen
  split_ifs <;> simp [add_connection_keys]

theorem contains_of_mem {ids : List RoomId} {i : RoomId} (h : i ∈ ids) :
    ids.contains i = true :=
  List.elem_iff.2 h

theorem hallway_fold_edges (ids : List RoomId) (l : List RoomId) (g : FloorPlanGraph)
    (hk : g.keys = ids) (hhall : RoomId.hallway ∈ ids)
    (hsub : ∀ i ∈ l, i ∈ ids) :
    (l.foldl hallway_loop_step g).edges
      = g.edges ++ l.flatMap (fun i =>
          (if i.startsBedroom then
            [{ room1_id := .hallway, room2_id := i, connection_type := .door }] else [])
          ++ (if i.startsBathroom then
            [{ room1_id := .hallway, room2_id := i, connection_type := .door }] else []))
    ∧ (l.foldl hallway_loop_step g).keys = ids := by
  induction l generalizing g with
  | nil => simpa using hk
  | cons i t ih =>
    have hi : i ∈ ids := hsub i (List.mem_cons_self i t)
    have hsub' : ∀ j ∈ t, j ∈ ids :=
      fun j hj => hsub j (List.mem_cons_of_mem i hj)
    have hstep_edges : (hallway_loop_step g i).edges
        = g.edges ++ ((if i.startsBedroom then
            [{ room1_id := .hallway, room2_id := i, connection_type := .door }] else [])
          ++ (if i.startsBathroom then
            [{ room1_id := .hallway, room2_id := i, connection_type := .door }] else [])) := by
      by_cases hb : i.startsBedroom = true <;> by_cases hc : i.startsBathroom = true <;>
        simp [hallway_loop_step, hb, hc, add_connection_edges, add_connection_keys,
          hk, hhall, hi]
    have hstep_keys : (hallway_loop_step g i).keys = ids := by
      by_cases hb : i.startsBedroom = true <;> by_cases hc : i.startsBathroom = true <;>
        simp [hallway_loop_step, hb, hc, add_connection_keys, hk]
    simp only [List.foldl_cons]
    obtain ⟨he, hkk⟩ := ih (hallway_loop_step g i) hstep_keys hsub'
    refine ⟨?_, hkk⟩
    rw [he, hstep_edges]
    simp [List.append_assoc]

theorem conn_hallway_edges (ids : List RoomId) (g : FloorPlanGraph) (hk : g.keys = ids) :
    (conn_hallway ids g).edges = g.edges
      ++ (if ids.contains RoomId.hallway then
        (if ids.contains RoomId.master_bedroom then
          [{ room1_id := .hallway, room2_id := .master_bedroom, connection_type := .door }] else [])
        ++ ids.flatMap (fun i =>
          (if i.startsBedroom then
            [{ room1_id := .hallway, room2_id := i, connection_type := .door }] else [])
          ++ (if i.startsBathroom then
            [{ room1_id := .hallway, room2_id := i, connection_type := .door }] else []))
        else []) := by
  by_cases h1 : RoomId.hallway ∈ ids
  · by_cases h2 : RoomId.master_bedroom ∈ ids
    · have hk' : (g.add_connection .hallway .master_bedroom .door).keys = ids := by
        rw [add_connection_keys, hk]
      have hf := hallway_fold_edges ids ids _ hk' h1 (fun i hi => hi)
      have hc : conn_hallway ids g
          = ids.foldl hallway_loop_step (g.add_connection .hallway .master_bedroom .door) := by
        simp [conn_hallway, h1, h2]
      rw [hc, hf.1]
      simp [add_connection_edges, hk, h1, h2, List.append_assoc]
    · have hc : conn_hallway ids g = ids.foldl hallway_loop_step g := by
        simp [conn_hallway, h1, h2]
      have hf := hallway_fold_edges ids ids g hk h1 (fun i hi => hi)
      rw [hc, hf.1]
      simp [h1, h2]
  · simp [conn_hallway, h1]

theorem conn_hallway_keys (ids : List RoomId) (g : FloorPlanGraph) (hk : g.keys = ids) :
    (conn_hallway ids g).keys = ids := by
  by_cases h1 : RoomId.hallway ∈ ids
  · by_cases h2 : RoomId.master_bedroom ∈ ids
    · have hk' : (g.add_connection .hallway .master_bedroom .door).keys = ids := by
        rw [add_connection_keys, hk]
      have hf := hallway_fold_edges ids ids _ hk' h1 (fun i hi => hi)
      have hc : conn_hallway ids g
          = ids.foldl hallway_loop_step (g.add_connection .hallway .master_bedroom .door) := by
        simp [conn_hallway, h1, h2]
      rw [hc]
      exact hf.2
    · have hc : conn_hallway ids g = ids.foldl hallway_loop_step g := by
        simp [conn_hallway, h1, h2]
      have hf := hallway_fold_edges ids ids g hk h1 (fun i hi => hi)
      rw [hc]
      exact hf.2
  · simpa [conn_hallway, h1] using hk

theorem conn_ensuite_edges (ids : List RoomId) (g : FloorPlanGraph) (hk : g.keys = ids) :
    (conn_ensuite ids g).edges = g.edges
      ++ (if ids.contains RoomId.en_suite ∧ ids.contains RoomId.master_bedroom then
        [{ room1_id := .master_bedroom, room2_id := .en_suite, connection_type := .door }] else []) := by
  by_cases h1 : RoomId.en_suite ∈ ids <;>
  by_cases h2 : RoomId.master_bedroom ∈ ids <;>
    simp [conn_ensuite, h1, h2, add_connection_edges, hk]

theorem conn_ensuite_keys (ids : List RoomId) (g : FloorPlanGraph) :
    (conn_ensuite ids g).keys = g.keys := by
  unfold conn_ensuite
  split_ifs <;> simp [add_connection_keys]

theorem conn_garage_edges (ids : List RoomId) (g : FloorPlanGraph) (hk : g.keys = ids) :
    (conn_garage ids g).edges = g.edges
      ++ (if ids.contains RoomId.garage then
        (if ids.contains RoomId.kitchen then
          [{ room1_id := .garage, room2_id := .kitchen, connection_type := .door }]
        else if ids.contains RoomId.hallway then
          [{ room1_id := .garage, room2_id := .hallway, connection_type := .door }]
        else [])
        else []) := by
  by_cases h1 : RoomId.garage ∈ ids <;>
  by_cases h2 : RoomId.kitchen ∈ ids <;>
  by_cases h3 : RoomId.hallway ∈ ids <;>
    simp [conn_garage, h1, h2, h3, add_connection_edges, hk]

theorem conn_garage_keys (ids : List RoomId) (g : FloorPlanGraph) :
    (conn_garage ids g).keys = g.keys := by
  unfold conn_garage
  split_ifs <;> simp [add_connection_keys]

/-- The imperative `_add_default_connections` produces exactly the
declarative rule table, appended to whatever edges the graph already
has. -/
theorem add_default_connections_edges (g : FloorPlanGraph) :
    (add_default_connections g).edges = g.edges ++ rule_edges g.keys := by
  have k1 := conn_living_keys g.keys g
  have k2 := conn_kitchen_keys g.keys (conn_living g.keys g)
  have k3 := conn_hallway_keys g.keys (conn_kitchen g.keys (conn_living g.keys g))
    (by rw [k2, k1])
  have k4 := conn_ensuite_keys g.keys (conn_hallway g.keys
    (conn_kitchen g.keys (conn_living g.keys g)))
  have e1 := conn_living_edges g.keys g rfl
  have e2 := conn_kitchen_edges g.keys (conn_living g.keys g) (by rw [k1])
  have e3 := conn_hallway_edges g.keys (conn_kitchen g.keys (conn_living g.keys g))
    (by rw [k2, k1])
  have e4 := conn_ensuite_edges g.keys (conn_hallway g.keys
    (conn_kitchen g.keys (conn_living g.keys g))) k3
  have e5 := conn_garage_edges g.keys (conn_ensuite g.keys (conn_hallway g.keys
    (conn_kitchen g.keys (conn_living g.keys g)))) (by rw [k4, k3])
  show (conn_garage g.keys (conn_ensuite g.keys (conn_hallway g.keys
    (conn_kitchen g.keys (conn_living g.keys g))))).edges = _
  rw [e5, e4, e3, e2, e1, rule_edges]
  simp [List.append_assoc]

theorem add_default_connections_keys (g : FloorPlanGraph) :
    (add_default_connections g).keys = g.keys := by
  have k1 := conn_living_keys g.keys g
  have k2 := conn_kitchen_keys g.keys (conn_living g.keys g)
  have k3 := conn_hallway_keys g.keys (conn_kitchen g.keys (conn_living g.keys g))
    (by rw [k2, k1])
  have k4 := conn_ensuite_keys g.keys (conn_hallway g.keys
    (conn_kitchen g.keys (conn_living g.keys g)))
  have k5 := conn_garage_keys g.keys (conn_ensuite g.keys (conn_hallway g.keys
    (conn_kitchen g.keys (conn_living g.keys g))))
  show (conn_garage g.keys (conn_ensuite g.keys (conn_hallway g.keys
    (conn_kitchen g.keys (conn_living g.keys g))))).keys = g.keys
  rw [k5, k4, k3]

theorem build_fold_edges (dims : Dims) (l : List (RoomId × String)) (g : FloorPlanGraph) :
    (l.foldl (build_step dims) g).edges = g.edges := by
  induction l generalizing g with
  | nil => rfl
  | cons p t ih =>
    simp only [List.foldl_cons]
    rw [ih]
    exact add_room_edges g _

/-- C6 counterexample: with living room, kitchen, study and one bedroom
requested, both the study and the hallway exist, yet the graph has no
study↔hallway edge in either orientation (the claim's rule demands
one), no kitchen↔hallway edge, and it does contain a living↔study door
that the claim's rule set does not generate. -/
theorem C6_counterexample :
    RoomId.study ∈ (build_graph_from_spec ROOM_DIMENSIONS c6_spec).keys
    ∧ RoomId.hallway ∈ (build_graph_from_spec ROOM_DIMENSIONS c6_spec).keys
    ∧ RoomId.kitchen ∈ (build_graph_from_spec ROOM_DIMENSIONS c6_spec).keys
    ∧ (∀ e ∈ (build_graph_from_spec ROOM_DIMENSIONS c6_spec).edges,
        ¬ (e.room1_id = RoomId.study ∧ e.room2_id = RoomId.hallway)
        ∧ ¬ (e.room1_id = RoomId.hallway ∧ e.room2_id = RoomId.study)
        ∧ ¬ (e.room1_id = RoomId.kitchen ∧ e.room2_id = RoomId.hallway)
        ∧ ¬ (e.room1_id = RoomId.hallway ∧ e.room2_id = RoomId.kitchen))
    ∧ (∃ e ∈ (build_graph_from_spec ROOM_DIMENSIONS c6_spec).edges,
        e.room1_id = RoomId.living_room ∧ e.room2_id = RoomId.study
        ∧ e.connection_type = ConnectionType.door) := by
  decide

/-- C6 (amended): for every specification, the dynamic engine's graph
contains exactly the edges given by the fixed architectural rules,
whenever both endpoint rooms exist: living↔kitchen open archway,
living↔dining open, kitchen↔dining open, living↔hallway door,
living↔study door, hallway↔master bedroom and hallway↔every
`bedroom_*`/`bathroom_*` room as doors, master bedroom↔en-suite door,
and garage↔kitchen (or hallway if no kitchen) door — as captured by the
declarative `rule_edges` table over the graph's room keys. -/
theorem C6_fixed_rule_edges (dims : Dims) (s : Spec) :
    (build_graph_from_spec dims s).edges
      = rule_edges (build_graph_from_spec dims s).keys := by
  have hb : build_graph_from_spec dims s
      = add_default_connections ((room_list s).foldl (build_step dims) {}) := rfl
  rw [hb, add_default_connections_edges, add_default_connections_keys, build_fold_edges]
  simp only [List.nil_append]

/-! ### Claim C7 — completeness of the placed room list -/

theorem bedroom_range_nodup (a n : Nat) :
    ((List.range' a n).map (fun i => RoomId.bedroom (i + 1))).Nodup := by
  refine List.Nodup.map ?_ (List.nodup_range' a n)
  intro x y h
  simp only [RoomId.bedroom.injEq] at h
  omega

theorem bathroom_range_nodup (a n : Nat) :
    ((List.range' a n).map (fun i => RoomId.bathroom i)).Nodup := by
  refine List.Nodup.map ?_ (List.nodup_range' a n)
  intro x y h
  simpa using h

theorem room_ids_eq (s : Spec) :
    room_ids s
      = (if s.has_living then [RoomId.living_room] else [])
        ++ (if s.has_kitchen then [RoomId.kitchen] else [])
        ++ (if s.has_dining then [RoomId.dining_room] else [])
        ++ (if 0 < s.num_bedrooms then [RoomId.hallway] else [])
        ++ (if 0 < s.num_bedrooms then [RoomId.master_bedroom] else [])
        ++ (List.range' 1 (s.num_bedrooms - 1)).map (fun i => RoomId.bedroom (i + 1))
        ++ (if 0 < s.num_bedrooms ∧ 0 < s.num_bathrooms then [RoomId.en_suite] else [])
        ++ (List.range' 1 (s.num_bathrooms - 1)).map (fun i => RoomId.bathroom i)
        ++ (if s.has_study then [RoomId.study] else [])
        ++ (if s.has_garage then [RoomId.garage] else []) := by
  unfold room_ids room_list
  simp only [List.map_append, apply_ite (List.map Prod.fst), List.map_map]
  rfl

theorem ite_singleton_sublist (c : Prop) [Decidable c] (x : RoomId) :
    (if c then [x] else []).Sublist [x] := by
  split_ifs
  · exact List.Sublist.refl [x]
  · exact List.nil_sublist [x]

theorem full_ids_nodup (n m : Nat) :
    ([RoomId.living_room] ++ [RoomId.kitchen] ++ [RoomId.dining_room]
      ++ [RoomId.hallway] ++ [RoomId.master_bedroom]
      ++ (List.range' 1 n).map (fun i => RoomId.bedroom (i + 1))
      ++ [RoomId.en_suite]
      ++ (List.range' 1 m).map (fun i => RoomId.bathroom i)
      ++ [RoomId.study] ++ [RoomId.garage]).Nodup := by
  simp only [List.nodup_append, List.disjoint_left, List.mem_map,
    bedroom_range_nodup, bathroom_range_nodup, List.mem_range', List.mem_append,
    List.mem_singleton, List.nodup_cons, List.not_mem_nil, not_false_eq_true,
    List.nodup_nil, and_true, true_and]
  refine ⟨⟨⟨⟨⟨?_, ?_⟩, ?_⟩, ?_⟩, ?_⟩, ?_⟩ <;> aesop

theorem room_ids_nodup (s : Spec) : (room_ids s).Nodup := by
  refine List.Nodup.sublist ?_ (full_ids_nodup (s.num_bedrooms - 1) (s.num_bathrooms - 1))
  rw [room_ids_eq]
  refine List.Sublist.append ?_ (ite_singleton_sublist (s.has_garage = true) _)
  refine List.Sublist.append ?_ (ite_singleton_sublist (s.has_study = true) _)
  refine List.Sublist.append ?_ (List.Sublist.refl _)
  refine List.Sublist.append ?_
    (ite_singleton_sublist (0 < s.num_bedrooms ∧ 0 < s.num_bathrooms) _)
  refine List.Sublist.append ?_ (List.Sublist.refl _)
  refine List.Sublist.append ?_ (ite_singleton_sublist (0 < s.num_bedrooms) _)
  refine List.Sublist.append ?_ (ite_singleton_sublist (0 < s.num_bedrooms) _)
  refine List.Sublist.append ?_ (ite_singleton_sublist (s.has_dining = true) _)
  exact List.Sublist.append (ite_singleton_sublist (s.has_living = true) _)
    (ite_singleton_sublist (s.has_kitchen = true) _)

theorem build_fold_keys (dims : Dims) (l : List (RoomId × String)) (g : FloorPlanGraph)
    (h : (g.keys ++ l.map Prod.fst).Nodup) :
    (l.foldl (build_step dims) g).keys = g.keys ++ l.map Prod.fst := by
  induction l generalizing g with
  | nil => simp
  | cons p t ih =>
    simp only [List.foldl_cons, List.map_cons]
    have hnotin : ¬ p.1 ∈ g.keys := by
      intro hm
      exact (List.nodup_append.1 h).2.2 hm (by simp)
    have hk : (build_step dims g p).keys = g.keys ++ [p.1] := by
      simp only [build_step]
      rw [add_room_keys]
      simp [hnotin]
    rw [ih (build_step dims g p) (by rw [hk]; simpa [List.append_assoc] using h), hk]
    simp

theorem build_graph_keys (dims : Dims) (s : Spec) :
    (build_graph_from_spec dims s).keys = room_ids s := by
  have hb : build_graph_from_spec dims s
      = add_default_connections ((room_list s).foldl (build_step dims) {}) := rfl
  rw [hb, add_default_connections_keys,
    build_fold_keys dims (room_list s) {} (by simpa [room_ids] using room_ids_nodup s)]
  simp [room_ids]
  rfl

/-! Node values are stored under their own identity key. -/

theorem add_room_consistent (g : FloorPlanGraph) (r : RoomNode)
    (h : ∀ p ∈ g.nodes, p.2.id = p.1) :
    ∀ p ∈ (g.add_room r).nodes, p.2.id = p.1 := by
  unfold FloorPlanGraph.add_room
  split_ifs with hc
  · intro p hp
    simp only [List.mem_map] at hp
    obtain ⟨q, hq, rfl⟩ := hp
    by_cases hqe : q.1 = r.id
    · simp [hqe]
    · simpa [hqe] using h q hq
  · intro p hp
    rcases List.mem_append.1 hp with h1 | h1
    · exact h p h1
    · simp only [List.mem_singleton] at h1
      subst h1
      rfl

theorem build_fold_consistent (dims : Dims) (l : List (RoomId × String))
    (g : FloorPlanGraph) (h : ∀ p ∈ g.nodes, p.2.id = p.1) :
    ∀ p ∈ (l.foldl (build_step dims) g).nodes, p.2.id = p.1 := by
  induction l generalizing g with
  | nil => exact h
  | cons q t ih =>
    simp only [List.foldl_cons]
    exact ih _ (add_room_consistent g _ h)

theorem conn_living_nodes (ids : List RoomId) (g : FloorPlanGraph) :
    (conn_living ids g).nodes = g.nodes := by
  unfold conn_living
  split_ifs <;> simp [add_connection_nodes]

theorem conn_kitchen_nodes (ids : List RoomId) (g : FloorPlanGraph) :
    (conn_kitchen ids g).nodes = g.nodes := by
  unfold conn_kitchen
  split_ifs <;> simp [add_connection_nodes]

theorem hallway_loop_nodes (l : List RoomId) (g : FloorPlanGraph) :
    (l.foldl hallway_loop_step g).nodes = g.nodes := by
  induction l generalizing g with
  | nil => rfl
  | cons i t ih =>
    simp only [List.foldl_cons]
    rw [ih]
    unfold hallway_loop_step
    split_ifs <;> simp [add_connection_nodes]

theorem conn_hallway_nodes (ids : List RoomId) (g : FloorPlanGraph) :
    (conn_hallway ids g).nodes = g.nodes := by
  unfold conn_hallway
  split_ifs <;> simp [hallway_loop_nodes, add_connection_nodes]

theorem conn_ensuite_nodes (ids : List RoomId) (g : FloorPlanGraph) :
    (conn_ensuite ids g).nodes = g.nodes := by
  unfold conn_ensuite
  split_ifs <;> simp [add_connection_nodes]

theorem conn_garage_nodes (ids : List RoomId) (g : FloorPlanGraph) :
    (conn_garage ids g).nodes = g.nodes := by
  unfold conn_garage
  split_ifs <;> simp [add_connection_nodes]

theorem add_default_connections_nodes (g : FloorPlanGraph) :
    (add_default_connections g).nodes = g.nodes := by
  show (conn_garage g.keys (conn_ensuite g.keys (conn_hallway g.keys
    (conn_kitchen g.keys (conn_living g.keys g))))).nodes = g.nodes
  rw [conn_garage_nodes, conn_ensuite_nodes, conn_hallway_nodes,
    conn_kitchen_nodes, conn_living_nodes]

theorem build_graph_consistent (dims : Dims) (s : Spec) :
    ∀ p ∈ (build_graph_from_spec dims s).nodes, p.2.id = p.1 := by
  have hb : build_graph_from_spec dims s
      = add_default_connections ((room_list s).foldl (build_step dims) {}) := rfl
  rw [hb]
  rw [show (add_default_connections ((room_list s).foldl (build_step dims) {})).nodes
    = ((room_list s).foldl (build_step dims) {}).nodes
    from add_default_connections_nodes _]
  exact build_fold_consistent dims (room_list s) {} (by intro p hp; cases hp)

theorem randomize_consistent (var : RoomId → ℚ × ℚ) (g : FloorPlanGraph)
    (h : ∀ p ∈ g.nodes, p.2.id = p.1) :
    ∀ p ∈ (randomize_room_dimensions var g).nodes, p.2.id = p.1 := by
  unfold randomize_room_dimensions
  intro p hp
  simp only [List.mem_map] at hp
  obtain ⟨q, hq, rfl⟩ := hp
  simpa using h q hq

/-! Looking up a present key succeeds and returns the room stored under
that key. -/

theorem get_node_isSome (g : FloorPlanGraph) (k : RoomId) (h : k ∈ g.keys) :
    ∃ r, g.get_node k = some r := by
  unfold FloorPlanGraph.get_node
  simp only [FloorPlanGraph.keys, List.mem_map] at h
  obtain ⟨p, hp, hpk⟩ := h
  have hs : (g.nodes.find? (fun q => q.1 = k)).isSome :=
    List.find?_isSome.2 ⟨p, hp, by simp [hpk]⟩
  obtain ⟨q, hq⟩ := Option.isSome_iff_exists.1 hs
  exact ⟨q.2, by rw [hq]; rfl⟩

theorem get_node_id (g : FloorPlanGraph) (k : RoomId) (r : RoomNode)
    (hcons : ∀ p ∈ g.nodes, p.2.id = p.1) (h : g.get_node k = some r) : r.id = k := by
  unfold FloorPlanGraph.get_node at h
  cases hfind : g.nodes.find? (fun q => q.1 = k) with
  | none => rw [hfind] at h; cases h
  | some q =>
    rw [hfind] at h
    have h' : q.2 = r := Option.some.inj h
    subst h'
    have h1 := List.find?_some hfind
    have h2 := List.mem_of_find?_eq_some hfind
    have h3 := hcons q h2
    simp only [decide_eq_true_eq] at h1
    rw [h3, h1]

/-! The placement fold: every key in the order is placed, in order. -/

theorem place_step_some (rand : Rand) (gp : FloorPlanGraph × List RoomNode)
    (rid : RoomId) (room : RoomNode) (h : gp.1.get_node rid = some room) :
    place_step rand gp rid
      = (gp.1.add_room (placed_room rand room gp.2),
         gp.2 ++ [placed_room rand room gp.2]) := by
  unfold place_step placed_room
  rw [h]

theorem place_fold_spec (rand : Rand) (order : List RoomId)
    (gp : FloorPlanGraph × List RoomNode)
    (hcons : ∀ p ∈ gp.1.nodes, p.2.id = p.1)
    (hsub : ∀ i ∈ order, i ∈ gp.1.keys) :
    ((order.foldl (place_step rand) gp).2.map RoomNode.id
      = gp.2.map RoomNode.id ++ order)
    ∧ (∀ r ∈ (order.foldl (place_step rand) gp).2, r ∈ gp.2 ∨ r.placed = true) := by
  induction order generalizing gp with
  | nil => exact ⟨by simp, fun r hr => Or.inl hr⟩
  | cons i t ih =>
    have hi : i ∈ gp.1.keys := hsub i (List.mem_cons_self i t)
    obtain ⟨room, hroom⟩ := get_node_isSome gp.1 i hi
    have hid : room.id = i := get_node_id gp.1 i room hcons hroom
    simp only [List.foldl_cons]
    rw [place_step_some rand gp i room hroom]
    set room1 : RoomNode := placed_room rand room gp.2 with hroom1
    have hid1 : room1.id = i := hid
    have hkeys1 : (gp.1.add_room room1).keys = gp.1.keys := by
      rw [add_room_keys]
      have hc : gp.1.keys.contains room1.id = true := by
        rw [hid1]
        exact List.elem_iff.2 hi
      simp only [hc, if_true]
    have hcons1 : ∀ p ∈ (gp.1.add_room room1).nodes, p.2.id = p.1 :=
      add_room_consistent gp.1 room1 hcons
    have hsub1 : ∀ j ∈ t, j ∈ (gp.1.add_room room1).keys := by
      intro j hj
      rw [hkeys1]
      exact hsub j (List.mem_cons_of_mem i hj)
    obtain ⟨ihm, ihp⟩ := ih (gp.1.add_room room1, gp.2 ++ [room1]) hcons1 hsub1
    constructor
    · rw [ihm]
      simp [hid1]
    · intro r hr
      rcases ihp r hr with h1 | h1
      · rcases List.mem_append.1 h1 with h2 | h2
        · exact Or.inl h2
        · simp only [List.mem_singleton] at h2
          subst h2
          exact Or.inr rfl
      · exact Or.inr h1

/-! The placement order is a permutation of the graph's keys: each
`order_step` moves one pending key to the order, and the final zone loop
drains everything that is left. -/

theorem order_step_perm (st : List RoomId × List RoomId) (rid : RoomId) :
    ((order_step st rid).1 ++ (order_step st rid).2).Perm (st.1 ++ st.2) := by
  unfold order_step
  by_cases h : rid ∈ st.2
  · have hc : st.2.contains rid = true := List.elem_iff.2 h
    simp only [hc, if_true]
    rw [List.append_assoc]
    exact List.Perm.append_left st.1
      (by simpa using (List.perm_cons_erase h).symm)
  · have hc : ¬ st.2.contains rid = true := by
      simpa using h
    simp only [hc, if_false]
    exact List.Perm.refl _

theorem order_step_sublist (st : List RoomId × List RoomId) (rid : RoomId) :
    (order_step st rid).2.Sublist st.2 := by
  unfold order_step
  split_ifs
  · exact List.erase_sublist _ _
  · exact List.Sublist.refl _

theorem fold_order_step_perm (l : List RoomId) (st : List RoomId × List RoomId) :
    ((l.foldl order_step st).1 ++ (l.foldl order_step st).2).Perm (st.1 ++ st.2) := by
  induction l generalizing st with
  | nil => exact List.Perm.refl _
  | cons a t ih =>
    simp only [List.foldl_cons]
    exact (ih (order_step st a)).trans (order_step_perm st a)

theorem fold_order_step_sublist (l : List RoomId) (st : List RoomId × List RoomId) :
    (l.foldl order_step st).2.Sublist st.2 := by
  induction l generalizing st with
  | nil => exact List.Sublist.refl _
  | cons a t ih =>
    simp only [List.foldl_cons]
    exact (ih (order_step st a)).trans (order_step_sublist st a)

theorem fold_order_step_all (l : List RoomId) (st : List RoomId × List RoomId)
    (hn : l.Nodup) (hn2 : st.2.Nodup) (hsub : ∀ x ∈ l, x ∈ st.2) :
    ∀ x, x ∈ (l.foldl order_step st).2 ↔ (x ∈ st.2 ∧ x ∉ l) := by
  induction l generalizing st with
  | nil => intro x; simp
  | cons a t ih =>
    have ha : a ∈ st.2 := hsub a (List.mem_cons_self a t)
    have hc : st.2.contains a = true := List.elem_iff.2 ha
    have hstep : order_step st a = (st.1 ++ [a], st.2.erase a) := by
      unfold order_step
      simp only [hc, if_true]
    simp only [List.foldl_cons, hstep]
    have hn' : t.Nodup := hn.of_cons
    have hnotin : a ∉ t := (List.nodup_cons.1 hn).1
    have hn2' : (st.2.erase a).Nodup := hn2.erase a
    have hsub' : ∀ x ∈ t, x ∈ (st.1 ++ [a], st.2.erase a).2 := by
      intro x hx
      have hne : x ≠ a := fun he => hnotin (he ▸ hx)
      exact List.mem_erase_of_ne hne |>.2 (hsub x (List.mem_cons_of_mem a hx))
    intro x
    rw [ih (st.1 ++ [a], st.2.erase a) hn' hn2' hsub' x]
    simp only [hn2.mem_erase_iff, List.mem_cons]
    constructor
    · rintro ⟨⟨hne, hmem⟩, hnt⟩
      exact ⟨hmem, fun h => h.elim hne hnt⟩
    · rintro ⟨hmem, hno⟩
      exact ⟨⟨fun he => hno (Or.inl he), hmem⟩, fun ht => hno (Or.inr ht)⟩

theorem zone_fold_mem (p : RoomId → Bool) (l' : List RoomId)
    (st : List RoomId × List RoomId)
    (hperm : l'.Perm (st.2.filter p)) (hn2 : st.2.Nodup) :
    ∀ x, x ∈ (l'.foldl order_step st).2 ↔ (x ∈ st.2 ∧ ¬ p x = true) := by
  have hn : l'.Nodup := (hperm.nodup_iff).2 (hn2.filter p)
  have hsub : ∀ x ∈ l', x ∈ st.2 := by
    intro x hx
    exact List.mem_of_mem_filter (hperm.mem_iff.1 hx)
  intro x
  rw [fold_order_step_all l' st hn hn2 hsub x]
  constructor
  · rintro ⟨hmem, hno⟩
    refine ⟨hmem, fun hp => hno ?_⟩
    exact hperm.mem_iff.2 (List.mem_filter.2 ⟨hmem, hp⟩)
  · rintro ⟨hmem, hnp⟩
    refine ⟨hmem, fun hl => hnp ?_⟩
    exact (List.mem_filter.1 (hperm.mem_iff.1 hl)).2

theorem get_placement_order_perm (rand : Rand) (g : FloorPlanGraph)
    (hz : ∀ z l, (rand.shuffle_zone z l).Perm l) (hn : g.keys.Nodup) :
    (get_placement_order rand g).Perm g.keys := by
  simp only [get_placement_order, List.foldl_cons, List.foldl_nil]
  set st1 := order_step ([], g.keys) .living_room with hst1
  set st2 := (rand.shuffle_secondary [.kitchen, .dining_room, .hallway]).foldl order_step st1
    with hst2
  set st3 := order_step st2 .master_bedroom with hst3
  set st4 := order_step st3 .en_suite with hst4
  set zp : Zone → RoomId → Bool :=
    fun z rid => decide ((g.get_node rid).map RoomNode.zone = some z) with hzp
  set stA := (rand.shuffle_zone .pub (st4.2.filter (zp .pub))).foldl order_step st4 with hstA
  set stB := (rand.shuffle_zone .priv (stA.2.filter (zp .priv))).foldl order_step stA with hstB
  set stC := (rand.shuffle_zone .service (stB.2.filter (zp .service))).foldl order_step stB
    with hstC
  have hperm : (stC.1 ++ stC.2).Perm g.keys := by
    refine ((fold_order_step_perm _ stB).trans ?_)
    refine ((fold_order_step_perm _ stA).trans ?_)
    refine ((fold_order_step_perm _ st4).trans ?_)
    refine ((order_step_perm st3 _).trans ?_)
    refine ((order_step_perm st2 _).trans ?_)
    refine ((fold_order_step_perm _ st1).trans ?_)
    simpa using order_step_perm ([], g.keys) .living_room
  have hsub4 : st4.2.Sublist g.keys := by
    refine ((order_step_sublist st3 _).trans ?_)
    refine ((order_step_sublist st2 _).trans ?_)
    refine ((fold_order_step_sublist _ st1).trans ?_)
    exact order_step_sublist ([], g.keys) .living_room
  have hn4 : st4.2.Nodup := hn.sublist hsub4
  have hnA : stA.2.Nodup := hn4.sublist (fold_order_step_sublist _ st4)
  have hnB : stB.2.Nodup := hnA.sublist (fold_order_step_sublist _ stA)
  have hmA := zone_fold_mem (zp .pub)
    (rand.shuffle_zone .pub (st4.2.filter (zp .pub))) st4 (hz .pub _) hn4
  have hmB := zone_fold_mem (zp .priv)
    (rand.shuffle_zone .priv (stA.2.filter (zp .priv))) stA (hz .priv _) hnA
  have hmC := zone_fold_mem (zp .service)
    (rand.shuffle_zone .service (stB.2.filter (zp .service))) stB (hz .service _) hnB
  have hempty : stC.2 = [] := by
    cases hcase : stC.2 with
    | nil => rfl
    | cons x t =>
      exfalso
      have hx : x ∈ stC.2 := by rw [hcase]; exact List.mem_cons_self x t
      obtain ⟨hxB, hpc⟩ := (hmC x).1 hx
      obtain ⟨hxA, hpb⟩ := (hmB x).1 hxB
      obtain ⟨hx4, hpa⟩ := (hmA x).1 hxA
      have hxk : x ∈ g.keys := hsub4.mem hx4
      obtain ⟨room, hroom⟩ := get_node_isSome g x hxk
      rw [hzp] at hpa hpb hpc
      simp only [hroom, Option.map_some, decide_eq_true_eq, Option.some.injEq] at hpa hpb hpc
      cases hzone : room.zone
      · exact hpa (by simp [hzone])
      · exact hpb (by simp [hzone])
      · exact hpc (by simp [hzone])
  have : (stC.1 ++ stC.2).Perm g.keys := hperm
  rw [hempty, List.append_nil] at this
  exact this

/-! The repair pass moves rooms but never changes identities or placed
flags: the `(id, placed)` tags of the list are invariant. -/

theorem push_pair_tags (r s : RoomNode) :
    ((push_pair r s).1.id = r.id ∧ (push_pair r s).1.placed = r.placed)
    ∧ ((push_pair r s).2.id = s.id ∧ (push_pair r s).2.placed = s.placed) := by
  simp only [push_pair]
  split_ifs <;> exact ⟨⟨rfl, rfl⟩, ⟨rfl, rfl⟩⟩

theorem repair_sweep_tags (r : RoomNode) (l : List RoomNode) :
    ((repair_sweep r l).1.id = r.id ∧ (repair_sweep r l).1.placed = r.placed)
    ∧ (repair_sweep r l).2.1.map (fun u => (u.id, u.placed))
        = l.map (fun u => (u.id, u.placed)) := by
  induction l generalizing r with
  | nil => exact ⟨⟨rfl, rfl⟩, rfl⟩
  | cons s t ih =>
    unfold repair_sweep
    split_ifs with h
    · obtain ⟨⟨h1, h2⟩, h3⟩ := ih (push_pair r s).1
      obtain ⟨⟨p1, p2⟩, q1, q2⟩ := push_pair_tags r s
      exact ⟨⟨h1.trans p1, h2.trans p2⟩, by simp [h3, q1, q2]⟩
    · obtain ⟨⟨h1, h2⟩, h3⟩ := ih r
      exact ⟨⟨h1, h2⟩, by simp [h3]⟩

theorem repair_pass_aux_tags (n : Nat) (rs : List RoomNode) :
    (repair_pass_aux n rs).1.map (fun u => (u.id, u.placed))
      = rs.map (fun u => (u.id, u.placed)) := by
  induction n generalizing rs with
  | zero => rfl
  | succ n ih =>
    cases rs with
    | nil => rfl
    | cons r rest =>
      unfold repair_pass_aux
      obtain ⟨⟨h1, h2⟩, h3⟩ := repair_sweep_tags r rest
      simp [ih, h1, h2, h3]

theorem repair_loop_tags (n : Nat) (rs : List RoomNode) :
    (repair_loop n rs).map (fun u => (u.id, u.placed))
      = rs.map (fun u => (u.id, u.placed)) := by
  induction n generalizing rs with
  | zero => rfl
  | succ n ih =>
    show List.map _ (let p := repair_pass rs; if p.2 then repair_loop n p.1 else p.1) = _
    simp only [repair_pass]
    split_ifs
    · rw [ih, repair_pass_aux_tags]
    · rw [repair_pass_aux_tags]

theorem shift_min_to_origin_tags (rs : List RoomNode) :
    (shift_min_to_origin rs).map (fun u => (u.id, u.placed))
      = rs.map (fun u => (u.id, u.placed)) := by
  unfold shift_min_to_origin
  cases rs with
  | nil => rfl
  | cons r t => simp

theorem repair_overlaps_tags (rs : List RoomNode) :
    (repair_overlaps rs).map (fun u => (u.id, u.placed))
      = rs.map (fun u => (u.id, u.placed)) := by
  unfold repair_overlaps
  split_ifs
  · rfl
  · rw [shift_min_to_origin_tags, repair_loop_tags]

/-! Counting the room identities produced by `room_list`. -/

theorem count_bedseg_zero (a : RoomId) (n k : Nat)
    (h : ∀ i, RoomId.bedroom i = a → False) :
    ((List.range' k n).map (fun i => RoomId.bedroom (i + 1))).count a = 0 := by
  rw [List.count_eq_zero]
  intro hm
  obtain ⟨x, _, he⟩ := List.mem_map.1 hm
  exact h _ he

theorem count_bathseg_zero (a : RoomId) (n k : Nat)
    (h : ∀ i, RoomId.bathroom i = a → False) :
    ((List.range' k n).map (fun i => RoomId.bathroom i)).count a = 0 := by
  rw [List.count_eq_zero]
  intro hm
  obtain ⟨x, _, he⟩ := List.mem_map.1 hm
  exact h _ he

theorem countP_ite_singleton (p : RoomId → Bool) (c : Prop) [Decidable c] (x : RoomId) :
    (if c then [x] else []).countP p = if c then (if p x then 1 else 0) else 0 := by
  split_ifs <;> simp_all [List.countP_cons, List.countP_nil]

theorem room_ids_counts (s : Spec) :
    (room_ids s).count RoomId.living_room = (if s.has_living then 1 else 0)
    ∧ (room_ids s).count RoomId.kitchen = (if s.has_kitchen then 1 else 0)
    ∧ (room_ids s).count RoomId.dining_room = (if s.has_dining then 1 else 0)
    ∧ (room_ids s).count RoomId.hallway = (if 0 < s.num_bedrooms then 1 else 0)
    ∧ (room_ids s).count RoomId.master_bedroom = (if 0 < s.num_bedrooms then 1 else 0)
    ∧ (room_ids s).countP (fun i => i.startsBedroom) = s.num_bedrooms - 1
    ∧ (room_ids s).count RoomId.en_suite
        = (if 0 < s.num_bedrooms ∧ 0 < s.num_bathrooms then 1 else 0)
    ∧ (room_ids s).countP (fun i => i.startsBathroom) = s.num_bathrooms - 1
    ∧ (room_ids s).count RoomId.study = (if s.has_study then 1 else 0)
    ∧ (room_ids s).count RoomId.garage = (if s.has_garage then 1 else 0) := by
  refine ⟨?_, ?_, ?_, ?_, ?_, ?_, ?_, ?_, ?_, ?_⟩
  · rw [room_ids_eq]
    simp [List.count_append, apply_ite (List.count RoomId.living_room),
      List.count_cons, List.count_nil, beq_iff_eq,
      count_bedseg_zero RoomId.living_room _ _ (fun i hi => by cases hi),
      count_bathseg_zero RoomId.living_room _ _ (fun i hi => by cases hi)]
  · rw [room_ids_eq]
    simp [List.count_append, apply_ite (List.count RoomId.kitchen),
      List.count_cons, List.count_nil, beq_iff_eq,
      count_bedseg_zero RoomId.kitchen _ _ (fun i hi => by cases hi),
      count_bathseg_zero RoomId.kitchen _ _ (fun i hi => by cases hi)]
  · rw [room_ids_eq]
    simp [List.count_append, apply_ite (List.count RoomId.dining_room),
      List.count_cons, List.count_nil, beq_iff_eq,
      count_bedseg_zero RoomId.dining_room _ _ (fun i hi => by cases hi),
      count_bathseg_zero RoomId.dining_room _ _ (fun i hi => by cases hi)]
  · rw [room_ids_eq]
    simp [List.count_append, apply_ite (List.count RoomId.hallway),
      List.count_cons, List.count_nil, beq_iff_eq,
      count_bedseg_zero RoomId.hallway _ _ (fun i hi => by cases hi),
      count_bathseg_zero RoomId.hallway _ _ (fun i hi => by cases hi)]
  · rw [room_ids_eq]
    simp [List.count_append, apply_ite (List.count RoomId.master_bedroom),
      List.count_cons, List.count_nil, beq_iff_eq,
      count_bedseg_zero RoomId.master_bedroom _ _ (fun i hi => by cases hi),
      count_bathseg_zero RoomId.master_bedroom _ _ (fun i hi => by cases hi)]
  · rw [room_ids_eq]
    simp only [List.countP_append, countP_ite_singleton, List.countP_map, Function.comp_def]
    simp [RoomId.startsBedroom, List.countP_true, List.countP_false, List.length_range']
  · rw [room_ids_eq]
    simp [List.count_append, apply_ite (List.count RoomId.en_suite),
      List.count_cons, List.count_nil, beq_iff_eq,
      count_bedseg_zero RoomId.en_suite _ _ (fun i hi => by cases hi),
      count_bathseg_zero RoomId.en_suite _ _ (fun i hi => by cases hi)]
  · rw [room_ids_eq]
    simp only [List.countP_append, countP_ite_singleton, List.countP_map, Function.comp_def]
    simp [RoomId.startsBathroom, List.countP_true, List.countP_false, List.length_range']
  · rw [room_ids_eq]
    simp [List.count_append, apply_ite (List.count RoomId.study),
      List.count_cons, List.count_nil, beq_iff_eq,
      count_bedseg_zero RoomId.study _ _ (fun i hi => by cases hi),
      count_bathseg_zero RoomId.study _ _ (fun i hi => by cases hi)]
  · rw [room_ids_eq]
    simp [List.count_append, apply_ite (List.count RoomId.garage),
      List.count_cons, List.count_nil, beq_iff_eq,
      count_bedseg_zero RoomId.garage _ _ (fun i hi => by cases hi),
      count_bathseg_zero RoomId.garage _ _ (fun i hi => by cases hi)]

/-- **C7** For every specification, the dynamic engine's output room list
holds exactly the rooms implied by the specification — a permutation of
`room_list`'s keys, hence exactly one master bedroom, one hallway and
`N − 1` `bedroom_*` entries when `bedrooms = N > 0`, one en-suite when
additionally `bathrooms = M > 0` plus `M − 1` `bathroom_*` entries, and
one room per requested boolean feature — and every room in the returned
list has `placed = true`; no room is dropped. The random shuffles are
assumed to be permutations (they are in the source, `random.shuffle`). -/
theorem C7_complete_rooms (rand : Rand) (dims : Dims) (s : Spec)
    (hz : ∀ z l, (rand.shuffle_zone z l).Perm l) :
    ((dynamic_rooms rand dims s).map RoomNode.id).Perm (room_ids s)
    ∧ (∀ r ∈ dynamic_rooms rand dims s, r.placed = true)
    ∧ ((dynamic_rooms rand dims s).map RoomNode.id).count RoomId.living_room
        = (if s.has_living then 1 else 0)
    ∧ ((dynamic_rooms rand dims s).map RoomNode.id).count RoomId.kitchen
        = (if s.has_kitchen then 1 else 0)
    ∧ ((dynamic_rooms rand dims s).map RoomNode.id).count RoomId.dining_room
        = (if s.has_dining then 1 else 0)
    ∧ ((dynamic_rooms rand dims s).map RoomNode.id).count RoomId.hallway
        = (if 0 < s.num_bedrooms then 1 else 0)
    ∧ ((dynamic_rooms rand dims s).map RoomNode.id).count RoomId.master_bedroom
        = (if 0 < s.num_bedrooms then 1 else 0)
    ∧ ((dynamic_rooms rand dims s).map RoomNode.id).countP (fun i => i.startsBedroom)
        = s.num_bedrooms - 1
    ∧ ((dynamic_rooms rand dims s).map RoomNode.id).count RoomId.en_suite
        = (if 0 < s.num_bedrooms ∧ 0 < s.num_bathrooms then 1 else 0)
    ∧ ((dynamic_rooms rand dims s).map RoomNode.id).countP (fun i => i.startsBathroom)
        = s.num_bathrooms - 1
    ∧ ((dynamic_rooms rand dims s).map RoomNode.id).count RoomId.study
        = (if s.has_study then 1 else 0)
    ∧ ((dynamic_rooms rand dims s).map RoomNode.id).count RoomId.garage
        = (if s.has_garage then 1 else 0) := by
  have hb : dynamic_rooms rand dims s
      = repair_overlaps (place_rooms_constrained rand
          (randomize_room_dimensions rand.dim_variation (build_graph_from_spec dims s))).2 :=
    rfl
  set g1 := randomize_room_dimensions rand.dim_variation (build_graph_from_spec dims s)
    with hg1
  have hkeys : g1.keys = room_ids s := by
    rw [hg1, randomize_keys, build_graph_keys]
  have hnodup : g1.keys.Nodup := by
    rw [hkeys]
    exact room_ids_nodup s
  have hcons : ∀ p ∈ g1.nodes, p.2.id = p.1 :=
    randomize_consistent _ _ (build_graph_consistent dims s)
  have horder := get_placement_order_perm rand g1 hz hnodup
  have hsub : ∀ i ∈ get_placement_order rand g1, i ∈ g1.keys :=
    fun i hi => horder.mem_iff.1 hi
  obtain ⟨hmap, hplaced⟩ :=
    place_fold_spec rand (get_placement_order rand g1) (g1, []) hcons hsub
  have hplace : place_rooms_constrained rand g1
      = (get_placement_order rand g1).foldl (place_step rand) (g1, []) := rfl
  have htag := repair_overlaps_tags (place_rooms_constrained rand g1).2
  have hid : (dynamic_rooms rand dims s).map RoomNode.id
      = (place_rooms_constrained rand g1).2.map RoomNode.id := by
    rw [hb]
    have h := congrArg (List.map Prod.fst) htag
    simpa [List.map_map, Function.comp_def] using h
  have hid2 : (place_rooms_constrained rand g1).2.map RoomNode.id
      = get_placement_order rand g1 := by
    rw [hplace]
    simpa using hmap
  have hperm : ((dynamic_rooms rand dims s).map RoomNode.id).Perm (room_ids s) := by
    rw [hid, hid2, ← hkeys]
    exact horder
  have hplacedAll : ∀ r ∈ dynamic_rooms rand dims s, r.placed = true := by
    intro r hr
    rw [hb] at hr
    have hmem : (r.id, r.placed)
        ∈ (place_rooms_constrained rand g1).2.map (fun u => (u.id, u.placed)) := by
      rw [← htag]
      exact List.mem_map_of_mem _ hr
    obtain ⟨u, hu, he⟩ := List.mem_map.1 hmem
    have hu2 : u ∈ ((get_placement_order rand g1).foldl (place_step rand) (g1, [])).2 := by
      rw [← hplace]
      exact hu
    rcases hplaced u hu2 with h0 | h0
    · cases h0
    · have hsnd : u.placed = r.placed := congrArg Prod.snd he
      rw [← hsnd]
      exact h0
  obtain ⟨c1, c2, c3, c4, c5, c6, c7, c8, c9, c10⟩ := room_ids_counts s
  refine ⟨hperm, hplacedAll, ?_, ?_, ?_, ?_, ?_, ?_, ?_, ?_, ?_, ?_⟩
  · rw [hperm.count_eq]; exact c1
  · rw [hperm.count_eq]; exact c2
  · rw [hperm.count_eq]; exact c3
  · rw [hperm.count_eq]; exact c4
  · rw [hperm.count_eq]; exact c5
  · rw [hperm.countP_eq]; exact c6
  · rw [hperm.count_eq]; exact c7
  · rw [hperm.countP_eq]; exact c8
  · rw [hperm.count_eq]; exact c9
  · rw [hperm.count_eq]; exact c10

/-- Witness for C7: the identity-shuffle oracle on the empty
specification. -/
theorem C7_complete_rooms_witness :
    ((dynamic_rooms id_rand ROOM_DIMENSIONS Spec.empty).map RoomNode.id).Perm
        (room_ids Spec.empty)
    ∧ (∀ r ∈ dynamic_rooms id_rand ROOM_DIMENSIONS Spec.empty, r.placed = true)
    ∧ ((dynamic_rooms id_rand ROOM_DIMENSIONS Spec.empty).map RoomNode.id).count
        RoomId.living_room = (if Spec.empty.has_living then 1 else 0)
    ∧ ((dynamic_rooms id_rand ROOM_DIMENSIONS Spec.empty).map RoomNode.id).count
        RoomId.kitchen = (if Spec.empty.has_kitchen then 1 else 0)
    ∧ ((dynamic_rooms id_rand ROOM_DIMENSIONS Spec.empty).map RoomNode.id).count
        RoomId.dining_room = (if Spec.empty.has_dining then 1 else 0)
    ∧ ((dynamic_rooms id_rand ROOM_DIMENSIONS Spec.empty).map RoomNode.id).count
        RoomId.hallway = (if 0 < Spec.empty.num_bedrooms then 1 else 0)
    ∧ ((dynamic_rooms id_rand ROOM_DIMENSIONS Spec.empty).map RoomNode.id).count
        RoomId.master_bedroom = (if 0 < Spec.empty.num_bedrooms then 1 else 0)
    ∧ ((dynamic_rooms id_rand ROOM_DIMENSIONS Spec.empty).map RoomNode.id).countP
        (fun i => i.startsBedroom) = Spec.empty.num_bedrooms - 1
    ∧ ((dynamic_rooms id_rand ROOM_DIMENSIONS Spec.empty).map RoomNode.id).count
        RoomId.en_suite
        = (if 0 < Spec.empty.num_bedrooms ∧ 0 < Spec.empty.num_bathrooms then 1 else 0)
    ∧ ((dynamic_rooms id_rand ROOM_DIMENSIONS Spec.empty).map RoomNode.id).countP
        (fun i => i.startsBathroom) = Spec.empty.num_bathrooms - 1
    ∧ ((dynamic_rooms id_rand ROOM_DIMENSIONS Spec.empty).map RoomNode.id).count
        RoomId.study = (if Spec.empty.has_study then 1 else 0)
    ∧ ((dynamic_rooms id_rand ROOM_DIMENSIONS Spec.empty).map RoomNode.id).count
        RoomId.garage = (if Spec.empty.has_garage then 1 else 0) :=
  C7_complete_rooms id_rand ROOM_DIMENSIONS Spec.empty (fun _ l => List.Perm.refl l)

/-! ### Claim C1 — a successful bounded run fits the target footprint -/

theorem foldl_max_x_shift (t : List RoomNode) (b c d : ℚ) :
    ((t.map (fun s => { s with x := s.x - c, y := s.y - d })).foldl
        (fun a u => max a (u.x + u.width)) (b - c))
      = t.foldl (fun a u => max a (u.x + u.width)) b - c := by
  induction t generalizing b with
  | nil => rfl
  | cons s t ih =>
    simp only [List.map_cons, List.foldl_cons]
    rw [sub_add_eq_add_sub, max_sub_sub_right]
    exact ih _

theorem foldl_max_y_shift (t : List RoomNode) (b c d : ℚ) :
    ((t.map (fun s => { s with x := s.x - c, y := s.y - d })).foldl
        (fun a u => max a (u.y + u.height)) (b - d))
      = t.foldl (fun a u => max a (u.y + u.height)) b - d := by
  induction t generalizing b with
  | nil => rfl
  | cons s t ih =>
    simp only [List.map_cons, List.foldl_cons]
    rw [sub_add_eq_add_sub, max_sub_sub_right]
    exact ih _

theorem calculate_bounds_normalize_cons (r : RoomNode) (t : List RoomNode) :
    calculate_bounds (shift_min_to_origin (r :: t))
      = ⟨0, 0,
          (calculate_bounds (r :: t)).maxX - (calculate_bounds (r :: t)).minX,
          (calculate_bounds (r :: t)).maxY - (calculate_bounds (r :: t)).minY⟩ := by
  set mx := t.foldl (fun (a : ℚ) (u : RoomNode) => min a u.x) r.x with hmx
  set my := t.foldl (fun (a : ℚ) (u : RoomNode) => min a u.y) r.y with hmy
  have h1 : calculate_bounds (shift_min_to_origin (r :: t))
      = ⟨ (t.map (fun s => { s with x := s.x - mx, y := s.y - my })).foldl
            (fun (a : ℚ) (u : RoomNode) => min a u.x) (r.x - mx)
        , (t.map (fun s => { s with x := s.x - mx, y := s.y - my })).foldl
            (fun (a : ℚ) (u : RoomNode) => min a u.y) (r.y - my)
        , (t.map (fun s => { s with x := s.x - mx, y := s.y - my })).foldl
            (fun (a : ℚ) (u : RoomNode) => max a (u.x + u.width)) (r.x - mx + r.width)
        , (t.map (fun s => { s with x := s.x - mx, y := s.y - my })).foldl
            (fun (a : ℚ) (u : RoomNode) => max a (u.y + u.height)) (r.y - my + r.height) ⟩ :=
    rfl
  have h2 : calculate_bounds (r :: t)
      = ⟨ mx, my
        , t.foldl (fun (a : ℚ) (u : RoomNode) => max a (u.x + u.width)) (r.x + r.width)
        , t.foldl (fun (a : ℚ) (u : RoomNode) => max a (u.y + u.height)) (r.y + r.height) ⟩ :=
    rfl
  rw [h1, h2]
  rw [foldl_min_x_shift t r.x mx my, foldl_min_y_shift t r.y mx my]
  rw [sub_add_eq_add_sub r.x mx r.width, sub_add_eq_add_sub r.y my r.height]
  rw [foldl_max_x_shift t (r.x + r.width) mx my, foldl_max_y_shift t (r.y + r.height) mx my]
  rw [← hmx, ← hmy, sub_self, sub_self]

theorem ite_result_rooms (c : Prop) [inst : Decidable c] (res : GenerationResult)
    (k : Nat) (t : AreaBounds) :
    (if c then { res with attempts := k, bounds_used := some t } else res).rooms
      = res.rooms := by
  split_ifs <;> rfl

theorem bounded_step_inr (gen : Nat → Dims → Option (List RoomNode)) (target : AreaBounds)
    (k : Nat) (st : LoopState) (out : LoopState × GenerationResult)
    (h : bounded_step gen target k st = .inr out) :
    out.2.success = true
    ∧ out.2.actual_bounds.maxX - out.2.actual_bounds.minX ≤ target.width
    ∧ out.2.actual_bounds.maxY - out.2.actual_bounds.minY ≤ target.height := by
  simp only [bounded_step] at h
  split at h
  · exact absurd h (by simp)
  next rooms hg =>
    split_ifs at h with hfit hb
    · obtain ⟨st2, res⟩ := out
      simp only [Sum.inr.injEq, Prod.mk.injEq] at h
      obtain ⟨-, h2⟩ := h
      subst h2
      refine ⟨rfl, ?_⟩
      cases rooms with
      | nil =>
        simpa [normalize_layout, shift_min_to_origin, calculate_bounds] using hfit
      | cons r t =>
        show (calculate_bounds (shift_min_to_origin (r :: t))).maxX
              - (calculate_bounds (shift_min_to_origin (r :: t))).minX ≤ target.width
          ∧ (calculate_bounds (shift_min_to_origin (r :: t))).maxY
              - (calculate_bounds (shift_min_to_origin (r :: t))).minY ≤ target.height
        rw [calculate_bounds_normalize_cons]
        simpa using hfit
    · obtain ⟨st2, res⟩ := out
      simp only [Sum.inr.injEq, Prod.mk.injEq] at h
      obtain ⟨-, h2⟩ := h
      subst h2
      refine ⟨rfl, ?_⟩
      cases rooms with
      | nil =>
        simpa [normalize_layout, shift_min_to_origin, calculate_bounds] using hfit
      | cons r t =>
        show (calculate_bounds (shift_min_to_origin (r :: t))).maxX
              - (calculate_bounds (shift_min_to_origin (r :: t))).minX ≤ target.width
          ∧ (calculate_bounds (shift_min_to_origin (r :: t))).maxY
              - (calculate_bounds (shift_min_to_origin (r :: t))).minY ≤ target.height
        rw [calculate_bounds_normalize_cons]
        simpa using hfit

theorem bounded_loop_inr (gen : Nat → Dims → Option (List RoomNode)) (target : AreaBounds)
    (fuel : Nat) :
    ∀ k st stF res, bounded_loop gen target fuel k st = (stF, some res) →
      res.success = true
      ∧ res.actual_bounds.maxX - res.actual_bounds.minX ≤ target.width
      ∧ res.actual_bounds.maxY - res.actual_bounds.minY ≤ target.height := by
  induction fuel with
  | zero =>
    intro k st stF res h
    simp [bounded_loop] at h
  | succ fuel ih =>
    intro k st stF res h
    cases hstep : bounded_step gen target k st with
    | inl st1 =>
      rw [bounded_loop, hstep] at h
      exact ih _ _ _ _ h
    | inr p =>
      rw [bounded_loop, hstep] at h
      simp only [Prod.mk.injEq, Option.some.injEq] at h
      obtain ⟨-, h2⟩ := h
      subst h2
      exact bounded_step_inr gen target k st p hstep

theorem generate_bounded_cases (gen : Nat → Dims → Option (List RoomNode))
    (class_dims : Dims) (target : AreaBounds) :
    (∃ stF res, generate_bounded_run gen class_dims target = (stF, some res)
        ∧ (generate_bounded gen class_dims target).2 = res)
    ∨ (generate_bounded gen class_dims target).2.success = false := by
  cases hrun : generate_bounded_run gen class_dims target with
  | mk stF o =>
    cases o with
    | some res =>
      left
      refine ⟨stF, res, rfl, ?_⟩
      simp only [generate_bounded, hrun]
    | none =>
      right
      simp only [generate_bounded, hrun]
      cases hbest : stF.best <;> simp

/-- **C1** For every attempt oracle, catalog state and supplied target
footprint: if the `GenerationResult` returned by
`BoundedLayoutGenerator.generate` has `success = true`, the achieved
bounding box of the returned rooms fits the target — its width is at
most the target width and its height at most the target height. -/
theorem C1_success_fits (gen : Nat → Dims → Option (List RoomNode))
    (opt : Dims → FloorPlanGraph × List RoomNode) (class_dims : Dims)
    (target : AreaBounds)
    (h : (BoundedLayoutGenerator.generate gen opt class_dims (some target)).2.success
      = true) :
    (BoundedLayoutGenerator.generate gen opt class_dims (some target)).2.actual_bounds.maxX
        - (BoundedLayoutGenerator.generate gen opt class_dims
            (some target)).2.actual_bounds.minX
      ≤ target.width
    ∧ (BoundedLayoutGenerator.generate gen opt class_dims
          (some target)).2.actual_bounds.maxY
        - (BoundedLayoutGenerator.generate gen opt class_dims
            (some target)).2.actual_bounds.minY
      ≤ target.height := by
  have hgen : BoundedLayoutGenerator.generate gen opt class_dims (some target)
      = generate_bounded gen class_dims target := rfl
  rw [hgen] at h ⊢
  rcases generate_bounded_cases gen class_dims target with ⟨stF, res, hrun, hres⟩ | hfail
  · rw [hres] at h ⊢
    unfold generate_bounded_run at hrun
    exact (bounded_loop_inr gen target MAX_ATTEMPTS _ _ _ _ hrun).2
  · rw [hfail] at h
    cases h

/-! ### Claim C8 — terminal best-effort behaviour of the bounded loop -/

theorem best_invariant_log_append_none (target : AreaBounds) (st : LoopState)
    (entry : AttemptLog) (hout : entry.outcome = none)
    (hinv : best_invariant target st) :
    best_invariant target { st with log := st.log ++ [entry] } := by
  unfold best_invariant at hinv ⊢
  cases hb : st.best with
  | none =>
    cases hs : st.best_score with
    | none =>
      rw [hb, hs] at hinv
      simp only [hb, hs]
      intro e he
      rcases List.mem_append.1 he with h1 | h1
      · exact hinv e h1
      · rw [List.mem_singleton.1 h1]
        exact hout
    | some v =>
      rw [hb, hs] at hinv
      exact hinv.elim
  | some b =>
    cases hs : st.best_score with
    | none =>
      rw [hb, hs] at hinv
      exact hinv.elim
    | some v =>
      rw [hb, hs] at hinv
      simp only [hb, hs]
      obtain ⟨h1, ⟨e0, he0, ho0⟩, h3, h4, h5⟩ := hinv
      refine ⟨h1, ⟨e0, List.mem_append_left _ he0, ho0⟩, h3, h4, ?_⟩
      intro e he rooms hr
      rcases List.mem_append.1 he with h6 | h6
      · exact h5 e h6 rooms hr
      · rw [List.mem_singleton.1 h6] at hr
        rw [hout] at hr
        cases hr

theorem bounded_step_inl_best (gen : Nat → Dims → Option (List RoomNode))
    (target : AreaBounds) (k : Nat) (st st1 : LoopState)
    (h : bounded_step gen target k st = .inl st1)
    (hinv : best_invariant target st) : best_invariant target st1 := by
  simp only [bounded_step] at h
  split at h
  next hg =>
    simp only [Sum.inl.injEq] at h
    subst h
    exact best_invariant_log_append_none target st _ hg hinv
  next rooms hg =>
    split_ifs at h with hfit hb
    · -- a new best was recorded
      simp only [Sum.inl.injEq] at h
      subst h
      unfold best_invariant
      refine ⟨rfl, ⟨_, List.mem_append.2 (Or.inr (List.mem_singleton.2 rfl)), hg⟩,
        rfl, rfl, ?_⟩
      intro e he rooms' hr
      rcases List.mem_append.1 he with h6 | h6
      · unfold best_invariant at hinv
        cases hbb : st.best with
        | none =>
          cases hsb : st.best_score with
          | none =>
            rw [hbb, hsb] at hinv
            rw [hinv e h6] at hr
            cases hr
          | some v =>
            rw [hbb, hsb] at hinv
            exact hinv.elim
        | some b0 =>
          cases hsb : st.best_score with
          | none =>
            rw [hbb, hsb] at hinv
            exact hinv.elim
          | some v0 =>
            rw [hbb, hsb] at hinv
            obtain ⟨-, -, -, -, h5⟩ := hinv
            rw [hsb] at hb
            have hlt : score_of target rooms < v0 := by
              simpa [lt_inf, score_of, fit_score] using hb
            exact le_of_lt (lt_of_lt_of_le hlt (h5 e h6 rooms' hr))
      · rw [List.mem_singleton.1 h6] at hr
        rw [hg] at hr
        cases hr
        exact le_refl _
    · -- best unchanged
      simp only [Sum.inl.injEq] at h
      subst h
      cases hsb : st.best_score with
      | none =>
        rw [hsb] at hb
        exact absurd rfl hb
      | some v0 =>
        rw [hsb] at hb
        have hle : v0 ≤ score_of target rooms := by
          refine le_of_not_lt fun hlt => hb ?_
          simpa [lt_inf, score_of, fit_score] using hlt
        unfold best_invariant at hinv ⊢
        cases hbb : st.best with
        | none =>
          rw [hbb, hsb] at hinv
          exact hinv.elim
        | some b0 =>
          rw [hbb, hsb] at hinv
          rw [hbb] at hg
          simp only [hbb, hsb]
          obtain ⟨h1, ⟨e0, he0, ho0⟩, h3, h4, h5⟩ := hinv
          refine ⟨h1, ⟨e0, List.mem_append_left _ he0, ho0⟩, h3, h4, ?_⟩
          intro e he rooms' hr
          rcases List.mem_append.1 he with h6 | h6
          · exact h5 e h6 rooms' hr
          · rw [List.mem_singleton.1 h6] at hr
            have hr' : (generate_scaled (gen k) st.class_dims
                (next_scale target (Option.map GenerationResult.actual_bounds (some b0))
                  st.scale k)).2 = some rooms' := hr
            rw [hg] at hr'
            cases hr'
            exact hle

theorem bounded_loop_none_best (gen : Nat → Dims → Option (List RoomNode))
    (target : AreaBounds) (fuel : Nat) :
    ∀ k st stF, bounded_loop gen target fuel k st = (stF, none) →
      best_invariant target st → best_invariant target stF := by
  induction fuel with
  | zero =>
    intro k st stF h hinv
    simp only [bounded_loop, Prod.mk.injEq, and_true] at h
    rw [← h]
    exact hinv
  | succ fuel ih =>
    intro k st stF h hinv
    cases hstep : bounded_step gen target k st with
    | inl st1 =>
      rw [bounded_loop, hstep] at h
      exact ih _ _ _ h (bounded_step_inl_best gen target k st st1 hstep hinv)
    | inr p =>
      rw [bounded_loop, hstep] at h
      simp at h

/-- **C8** When every attempt within the 10-attempt budget fails to fit
the target, `BoundedLayoutGenerator.generate` still returns (never
raises): `success = false`; if any attempt produced a layout, the
returned rooms are the (origin-normalized) rooms of the best attempt —
one that was actually logged and whose total linear overflow is minimal
among all attempts that produced a layout — and the message reports the
achieved vs. target dimensions and the overflow; if no attempt produced
a layout at all, the rooms are empty with the terminal failure
message. -/
theorem C8_terminal_best_effort (gen : Nat → Dims → Option (List RoomNode))
    (opt : Dims → FloorPlanGraph × List RoomNode) (class_dims : Dims)
    (target : AreaBounds)
    (hnone : (generate_bounded_run gen class_dims target).2 = none) :
    (BoundedLayoutGenerator.generate gen opt class_dims (some target)).2.success = false
    ∧ (∀ b, (generate_bounded_run gen class_dims target).1.best = some b →
        (BoundedLayoutGenerator.generate gen opt class_dims (some target)).2.rooms
          = normalize_layout b.rooms
        ∧ (∃ e ∈ (generate_bounded_run gen class_dims target).1.log,
            e.outcome = some b.rooms)
        ∧ (∀ e ∈ (generate_bounded_run gen class_dims target).1.log, ∀ rooms,
            e.outcome = some rooms →
              score_of target b.rooms ≤ score_of target rooms)
        ∧ (BoundedLayoutGenerator.generate gen opt class_dims (some target)).2.message
          = .best_effort
              ((calculate_bounds (normalize_layout b.rooms)).maxX
                - (calculate_bounds (normalize_layout b.rooms)).minX)
              ((calculate_bounds (normalize_layout b.rooms)).maxY
                - (calculate_bounds (normalize_layout b.rooms)).minY)
              target.width target.height
              ((calculate_bounds (normalize_layout b.rooms)).maxX
                - (calculate_bounds (normalize_layout b.rooms)).minX - target.width)
              ((calculate_bounds (normalize_layout b.rooms)).maxY
                - (calculate_bounds (normalize_layout b.rooms)).minY - target.height))
    ∧ ((generate_bounded_run gen class_dims target).1.best = none →
        (BoundedLayoutGenerator.generate gen opt class_dims (some target)).2.rooms = []
        ∧ (BoundedLayoutGenerator.generate gen opt class_dims (some target)).2.message
          = .failed_max
        ∧ ∀ e ∈ (generate_bounded_run gen class_dims target).1.log,
            e.outcome = none) := by
  have hg0 : BoundedLayoutGenerator.generate gen opt class_dims (some target)
      = generate_bounded gen class_dims target := rfl
  rw [hg0]
  have h0 : best_invariant target
      { class_dims := class_dims, scale := 1, best := none, best_score := none
        log := [] } := by
    unfold best_invariant
    intro e he
    cases he
  have h1 : generate_bounded_run gen class_dims target
      = ((generate_bounded_run gen class_dims target).1, none) := by
    rw [← hnone]
  have h2 : bounded_loop gen target MAX_ATTEMPTS 1
      { class_dims := class_dims, scale := 1, best := none, best_score := none
        log := [] }
      = ((generate_bounded_run gen class_dims target).1, none) := h1
  have hinvF : best_invariant target (generate_bounded_run gen class_dims target).1 :=
    bounded_loop_none_best gen target MAX_ATTEMPTS 1 _ _ h2 h0
  refine ⟨?_, ?_, ?_⟩
  · simp only [generate_bounded, hnone]
    cases hbest : (generate_bounded_run gen class_dims target).1.best <;> simp
  · intro b hbest
    unfold best_invariant at hinvF
    rw [hbest] at hinvF
    cases hscore : (generate_bounded_run gen class_dims target).1.best_score with
    | none =>
      rw [hscore] at hinvF
      exact hinvF.elim
    | some v =>
      rw [hscore] at hinvF
      obtain ⟨-, ⟨e0, he0, ho0⟩, h3, -, h5⟩ := hinvF
      refine ⟨?_, ⟨e0, he0, ho0⟩, ?_, ?_⟩
      · simp only [generate_bounded, hnone, hbest]
      · intro e he rooms hr
        rw [← h3]
        exact h5 e he rooms hr
      · simp only [generate_bounded, hnone, hbest]
  · intro hbest
    unfold best_invariant at hinvF
    rw [hbest] at hinvF
    cases hscore : (generate_bounded_run gen class_dims target).1.best_score with
    | none =>
      rw [hscore] at hinvF
      refine ⟨?_, ?_, hinvF⟩
      · simp only [generate_bounded, hnone, hbest]
      · simp only [generate_bounded, hnone, hbest]
    | some v =>
      rw [hscore] at hinvF
      exact hinvF.elim

/-- Witness for C8: the oracle producing an oversized 20 × 10 room never
fits the 10 × 10 target, so the run exhausts its ten attempts. -/
theorem C8_terminal_best_effort_witness :
    (BoundedLayoutGenerator.generate gen_big opt_unused ROOM_DIMENSIONS
        (some target10)).2.success = false
    ∧ (∀ b, (generate_bounded_run gen_big ROOM_DIMENSIONS target10).1.best = some b →
        (BoundedLayoutGenerator.generate gen_big opt_unused ROOM_DIMENSIONS
            (some target10)).2.rooms
          = normalize_layout b.rooms
        ∧ (∃ e ∈ (generate_bounded_run gen_big ROOM_DIMENSIONS target10).1.log,
            e.outcome = some b.rooms)
        ∧ (∀ e ∈ (generate_bounded_run gen_big ROOM_DIMENSIONS target10).1.log,
            ∀ rooms, e.outcome = some rooms →
              score_of target10 b.rooms ≤ score_of target10 rooms)
        ∧ (BoundedLayoutGenerator.generate gen_big opt_unused ROOM_DIMENSIONS
              (some target10)).2.message
          = .best_effort
              ((calculate_bounds (normalize_layout b.rooms)).maxX
                - (calculate_bounds (normalize_layout b.rooms)).minX)
              ((calculate_bounds (normalize_layout b.rooms)).maxY
                - (calculate_bounds (normalize_layout b.rooms)).minY)
              target10.width target10.height
              ((calculate_bounds (normalize_layout b.rooms)).maxX
                - (calculate_bounds (normalize_layout b.rooms)).minX - target10.width)
              ((calculate_bounds (normalize_layout b.rooms)).maxY
                - (calculate_bounds (normalize_layout b.rooms)).minY - target10.height))
    ∧ ((generate_bounded_run gen_big ROOM_DIMENSIONS target10).1.best = none →
        (BoundedLayoutGenerator.generate gen_big opt_unused ROOM_DIMENSIONS
            (some target10)).2.rooms = []
        ∧ (BoundedLayoutGenerator.generate gen_big opt_unused ROOM_DIMENSIONS
              (some target10)).2.message
          = .failed_max
        ∧ ∀ e ∈ (generate_bounded_run gen_big ROOM_DIMENSIONS target10).1.log,
            e.outcome = none) :=
  C8_terminal_best_effort gen_big opt_unused ROOM_DIMENSIONS target10 (by
    norm_num [generate_bounded_run, bounded_loop, bounded_step, generate_scaled,
      next_scale, gen_big, target10, MAX_ATTEMPTS, lt_inf, fit_score,
      calculate_bounds, total_area, normalize_layout, shift_min_to_origin, mk_box])

/-- Witness for C1: the oracle producing a 2 × 2 room fits the 10 × 10
target on the first attempt. -/
theorem C1_success_fits_witness :
    (BoundedLayoutGenerator.generate gen_fit opt_unused ROOM_DIMENSIONS
        (some target10)).2.success = true
    ∧ ((BoundedLayoutGenerator.generate gen_fit opt_unused ROOM_DIMENSIONS
          (some target10)).2.actual_bounds.maxX
        - (BoundedLayoutGenerator.generate gen_fit opt_unused ROOM_DIMENSIONS
            (some target10)).2.actual_bounds.minX
      ≤ target10.width
    ∧ (BoundedLayoutGenerator.generate gen_fit opt_unused ROOM_DIMENSIONS
          (some target10)).2.actual_bounds.maxY
        - (BoundedLayoutGenerator.generate gen_fit opt_unused ROOM_DIMENSIONS
            (some target10)).2.actual_bounds.minY
      ≤ target10.height) :=
  ⟨by
    norm_num [BoundedLayoutGenerator.generate, generate_bounded, generate_bounded_run,
      bounded_loop, bounded_step, generate_scaled, next_scale, gen_fit, opt_unused,
      target10, MAX_ATTEMPTS, lt_inf, fit_score, calculate_bounds, total_area,
      normalize_layout, shift_min_to_origin, mk_box],
   C1_success_fits gen_fit opt_unused ROOM_DIMENSIONS target10 (by
    norm_num [BoundedLayoutGenerator.generate, generate_bounded, generate_bounded_run,
      bounded_loop, bounded_step, generate_scaled, next_scale, gen_fit, opt_unused,
      target10, MAX_ATTEMPTS, lt_inf, fit_score, calculate_bounds, total_area,
      normalize_layout, shift_min_to_origin, mk_box])⟩

/-! ### Claim C4 — the scale schedule of the retry loop -/

theorem next_scale_ge_half (target : AreaBounds) (bb : Option BBox) (prev : ℚ)
    (k : Nat) : (0.5 : ℚ) ≤ next_scale target bb prev k := by
  simp only [next_scale]
  exact le_max_right _ _

theorem next_scale_le_prev_some (target : AreaBounds) (b : BBox) (prev : ℚ) (k : Nat)
    (hprev : (0.5 : ℚ) ≤ prev) (hk : k ≠ 1) :
    next_scale target (some b) prev k ≤ prev := by
  simp only [next_scale, if_neg hk]
  refine max_le (le_trans
    (mul_le_mul_of_nonneg_right (min_le_right _ _) (by norm_num)) ?_) hprev
  linarith

theorem bounded_step_state_char (gen : Nat → Dims → Option (List RoomNode))
    (target : AreaBounds) (k : Nat) (st : LoopState) :
    ∃ bestOpt scoreOpt,
      step_state (bounded_step gen target k st)
        = { class_dims := (generate_scaled (gen k) st.class_dims
              (next_scale target (st.best.map GenerationResult.actual_bounds)
                st.scale k)).1
            scale := next_scale target (st.best.map GenerationResult.actual_bounds)
              st.scale k
            best := bestOpt
            best_score := scoreOpt
            log := st.log ++
              [{ attempt := k
                 scale := next_scale target
                   (st.best.map GenerationResult.actual_bounds) st.scale k
                 prev_scale := st.scale
                 best_before := st.best.map GenerationResult.actual_bounds
                 outcome := (generate_scaled (gen k) st.class_dims
                   (next_scale target (st.best.map GenerationResult.actual_bounds)
                     st.scale k)).2 }] }
      ∧ (bestOpt = none → st.best = none) := by
  cases hg : (generate_scaled (gen k) st.class_dims
      (next_scale target (st.best.map GenerationResult.actual_bounds) st.scale k)).2 with
  | none =>
    refine ⟨st.best, st.best_score, ?_, fun h => h⟩
    simp only [bounded_step, step_state, hg]
  | some rooms =>
    simp only [bounded_step, step_state, hg]
    split_ifs
    · exact ⟨_, _, rfl, fun h => nomatch h⟩
    · exact ⟨st.best, st.best_score, rfl, fun h => h⟩
    · exact ⟨_, _, rfl, fun h => nomatch h⟩
    · exact ⟨st.best, st.best_score, rfl, fun h => h⟩

theorem c4_step (gen : Nat → Dims → Option (List RoomNode)) (target : AreaBounds)
    (k : Nat) (st : LoopState) (hk : 1 ≤ k) (hinv : c4_inv target k st) :
    c4_inv target (k + 1) (step_state (bounded_step gen target k st)) := by
  obtain ⟨bestOpt, scoreOpt, hchar, hbnone⟩ := bounded_step_state_char gen target k st
  rw [hchar]
  obtain ⟨hsc, hlen, hfb, hlast, hchain, hent⟩ := hinv
  refine ⟨next_scale_ge_half _ _ _ _, ?_, ?_, ?_, ?_, ?_⟩
  · simp only [List.length_append, List.length_singleton, hlen]
    omega
  · intro h
    have hbest : st.best = none := hbnone h
    rw [hbest, if_neg (by omega : ¬ k + 1 = 1)]
    have hcast : ((k + 1 : Nat) : ℚ) - 2 = (k : ℚ) - 1 := by push_cast; ring
    rw [hcast]
    show max (if k = 1 then (1 : ℚ) else 1 - ((k : ℚ) - 1) * 0.1) 0.5
      = max (1 - ((k : ℚ) - 1) * 0.1) 0.5
    by_cases hk1 : k = 1
    · subst hk1
      norm_num
    · rw [if_neg hk1]
  · intro e he
    rw [List.getLast?_concat] at he
    cases he
    rfl
  · rw [List.chain'_append]
    refine ⟨hchain, List.chain'_singleton _, ?_⟩
    intro x hx y hy
    simp only [List.head?_cons, Option.mem_def, Option.some.injEq] at hy
    subst hy
    have hxs : x.scale = st.scale := hlast x hx
    have hk2 : 2 ≤ k := by
      have hne : st.log ≠ [] := by
        intro hemp
        rw [hemp] at hx
        cases hx
      have : 1 ≤ st.log.length := List.length_pos.2 hne
      omega
    show next_scale target (st.best.map GenerationResult.actual_bounds) st.scale k
      ≤ x.scale
    rw [hxs]
    cases hbest : st.best with
    | some b =>
      exact next_scale_le_prev_some target b.actual_bounds st.scale k hsc (by omega)
    | none =>
      have hform := hfb hbest
      rw [hform, if_neg (by omega : ¬ k = 1)]
      show max (if k = 1 then (1 : ℚ) else 1 - ((k : ℚ) - 1) * 0.1) 0.5
        ≤ max (1 - ((k : ℚ) - 2) * 0.1) 0.5
      rw [if_neg (by omega : ¬ k = 1)]
      refine max_le_max ?_ le_rfl
      have hcast : (2 : ℚ) ≤ (k : ℚ) := by exact_mod_cast hk2
      linarith
  · intro e he
    rcases List.mem_append.1 he with h1 | h1
    · exact hent e h1
    · rw [List.mem_singleton.1 h1]
      exact ⟨rfl, next_scale_ge_half _ _ _ _⟩

theorem c4_loop (gen : Nat → Dims → Option (List RoomNode)) (target : AreaBounds)
    (fuel : Nat) :
    ∀ k st, 1 ≤ k → c4_inv target k st →
      ∃ k', 1 ≤ k' ∧ c4_inv target k' (bounded_loop gen target fuel k st).1 := by
  induction fuel with
  | zero =>
    intro k st hk hinv
    exact ⟨k, hk, hinv⟩
  | succ fuel ih =>
    intro k st hk hinv
    have hstate := c4_step gen target k st hk hinv
    cases hstep : bounded_step gen target k st with
    | inl st1 =>
      rw [bounded_loop, hstep]
      rw [hstep] at hstate
      exact ih (k + 1) st1 (by omega) (by simpa [step_state] using hstate)
    | inr p =>
      rw [bounded_loop, hstep]
      rw [hstep] at hstate
      exact ⟨k + 1, by omega, by simpa [step_state] using hstate⟩

/-- **C4 (amended)** In every constrained run, every logged attempt's
scale equals `next_scale` of the loop's recorded inputs at that attempt
— the *best-so-far* attempt's achieved bounding box (not the previous
attempt's), the previous `scale` value and the attempt number:
`min(width_ratio, height_ratio, prev_scale) · 0.95` clamped to the 0.5
floor, with fallback `1 − (attempt − 1) · 0.1` while no attempt has
produced a layout — every scale is at least 0.5, and the scales of
successive attempts are non-increasing. -/
theorem C4_scale_schedule (gen : Nat → Dims → Option (List RoomNode))
    (class_dims : Dims) (target : AreaBounds) :
    (∀ e ∈ (generate_bounded_run gen class_dims target).1.log,
        e.scale = next_scale target e.best_before e.prev_scale e.attempt
        ∧ (0.5 : ℚ) ≤ e.scale)
    ∧ List.Chain' (fun e1 e2 => e2.scale ≤ e1.scale)
        (generate_bounded_run gen class_dims target).1.log := by
  have h0 : c4_inv target 1
      { class_dims := class_dims, scale := 1, best := none, best_score := none
        log := [] } := by
    refine ⟨by norm_num, rfl, fun _ => by norm_num, ?_, List.chain'_nil, ?_⟩
    · intro e he
      cases he
    · intro e he
      cases he
  obtain ⟨k', hk', hinv'⟩ := c4_loop gen target MAX_ATTEMPTS 1 _ (le_refl 1) h0
  exact ⟨hinv'.2.2.2.2.2, hinv'.2.2.2.2.1⟩

set_option maxHeartbeats 3200000 in
/-- C4 counterexample to the claim's "computed from the *previous*
attempt's achieved bounding box": with the oracle whose first attempt
achieves 10.5 × 10 (the best fit) and whose later attempts achieve
12 × 10, attempt 3's scale is 361/420 — derived from the *best* attempt's
10.5 × 10 box — whereas the claim's formula from the previous (second)
attempt's 12 × 10 box gives max(min(10/12, 10/10)·0.95, 0.5) = 19/24. -/
theorem C4_counterexample :
    ((generate_bounded_run gen_regress ROOM_DIMENSIONS target10).1.log.get? 1).map
        (fun e => (e.attempt, e.scale, e.outcome.map calculate_bounds))
      = some (2, 19/21, some ⟨0, 0, 12, 10⟩)
    ∧ ((generate_bounded_run gen_regress ROOM_DIMENSIONS target10).1.log.get? 2).map
        (fun e => (e.attempt, e.scale))
      = some (3, 361/420)
    ∧ (361/420 : ℚ)
      ≠ max (min (target10.width / 12) (target10.height / 10) * 0.95) 0.5 := by
  refine ⟨?_, ?_, ?_⟩
  · norm_num [generate_bounded_run, bounded_loop, bounded_step, generate_scaled,
      next_scale, gen_regress, target10, MAX_ATTEMPTS, lt_inf, fit_score,
      calculate_bounds, total_area, normalize_layout, shift_min_to_origin, mk_box,
      List.get?]
  · norm_num [generate_bounded_run, bounded_loop, bounded_step, generate_scaled,
      next_scale, gen_regress, target10, MAX_ATTEMPTS, lt_inf, fit_score,
      calculate_bounds, total_area, normalize_layout, shift_min_to_origin, mk_box,
      List.get?]
  · norm_num [target10]

end ArchiText
